import Mathlib

/-!
Verification development for the SwarmAndSnack server core
(`GameManager`, `GameRoom`, `Player`, `GameEntity`, `Vector2`,
`GameConstants`, `Direction`).

Shallow embedding conventions:
* C# `float` arithmetic is modelled over `ℚ` (idealised exact arithmetic);
  `Math.Sqrt` is modelled by `sqrtQ`, which is exact on perfect squares —
  every concrete scenario below uses perfect-square distances so the model
  and the source agree there.
* `DateTime.UtcNow` is modelled by an explicit `now : ℚ` parameter threaded
  into every operation that touches a timestamp.
* `Random.Shared` / `Guid.NewGuid` are modelled by a deterministic oracle
  `Rng : Nat → RngStep` together with a draw counter that every
  random-consuming operation threads through; `Random.Next(3, 6)` is
  modelled by mapping the oracle's value into the same support `{3, 4, 5}`.
* The mutable `ConcurrentDictionary` of players (at most 2, keyed by
  connection id) is modelled as a `List Player` in insertion order, and the
  room registry as a `List Room`; `TryAdd` failure on a duplicate key is
  modelled explicitly.
-/

/- Batteries marks the `Rat` field operations `@[irreducible]`, which
blocks `decide`/`rfl` evaluation of concrete rational scenarios; restore
the kernel-visible reducibility (the kernel ignores the annotation anyway). -/
set_option allowUnsafeReducibility true in
attribute [semireducible] Rat.add Rat.mul Rat.sub Rat.div Rat.inv Rat.neg

namespace SwarmAndSnack

/-! ### GameConstants.cs -/

def arenaWidth : ℚ := 960
def arenaHeight : ℚ := 640
def leaderSpeed : ℚ := 160
def leaderRadius : ℚ := 18
def underlingSpeed : ℚ := 120
def underlingRadius : ℚ := 12
def minUnderlingsPerPlayer : Nat := 3
def maxUnderlingsPerPlayer : Nat := 5

/-- `RoomInactivityTimeout = TimeSpan.FromMinutes(10)`, in seconds. -/
def roomInactivityTimeout : ℚ := 600

/-! ### Vector2 (record struct in GameRoom.cs's file) -/

structure Vec2 where
  x : ℚ
  y : ℚ
deriving DecidableEq, Repr

namespace Vec2

def zero : Vec2 := ⟨0, 0⟩

instance : Add Vec2 := ⟨fun a b => ⟨a.x + b.x, a.y + b.y⟩⟩
instance : Sub Vec2 := ⟨fun a b => ⟨a.x - b.x, a.y - b.y⟩⟩

/-- `operator *(Vector2, float)` : scaling a vector by a rational. -/
instance : HMul Vec2 ℚ Vec2 := ⟨fun v s => ⟨v.x * s, v.y * s⟩⟩

def lengthSquared (v : Vec2) : ℚ := v.x * v.x + v.y * v.y

/-- Integer square root (largest `k ≤ n` with `k * k ≤ n`), written as a
fold so the kernel can evaluate it on literals. -/
def natSqrt (n : Nat) : Nat :=
  (List.range (n + 1)).foldl (fun acc k => if k * k ≤ n then k else acc) 0

/-- Model of `Math.Sqrt` on `ℚ`: exact on rationals whose numerator and
denominator are perfect squares (all concrete inputs below are). -/
def sqrtQ (q : ℚ) : ℚ := (natSqrt q.num.toNat : ℚ) / (natSqrt q.den : ℚ)

def length (v : Vec2) : ℚ := sqrtQ v.lengthSquared

/-- `Normalized()`: returns the zero vector when `Length ≤ 0.0001`. -/
def normalized (v : Vec2) : Vec2 :=
  let l := v.length
  if l > 1 / 10000 then ⟨v.x / l, v.y / l⟩ else zero

/-- `WithLength(length)` -/
def withLength (v : Vec2) (l : ℚ) : Vec2 :=
  let n := v.normalized
  ⟨n.x * l, n.y * l⟩

def bounceX (v : Vec2) : Vec2 := ⟨-v.x, v.y⟩
def bounceY (v : Vec2) : Vec2 := ⟨v.x, -v.y⟩

def distanceSquared (a b : Vec2) : ℚ :=
  (a.x - b.x) * (a.x - b.x) + (a.y - b.y) * (a.y - b.y)

/-- Dot product, used to state "pointing away along the normal". -/
def dot (a b : Vec2) : ℚ := a.x * b.x + a.y * b.y

end Vec2

/-! ### Direction.cs -/

inductive Direction where
  | none
  | up
  | down
  | left
  | right
deriving DecidableEq, Repr

/-- `DirectionExtensions.ToVector` -/
def Direction.toVector : Direction → Vec2
  | .up => ⟨0, -1⟩
  | .down => ⟨0, 1⟩
  | .left => ⟨-1, 0⟩
  | .right => ⟨1, 0⟩
  | .none => Vec2.zero

/-! ### GameEntity.cs / Leader / Underling

The C# classes share `Id : Guid`, `OwnerId`, `Position`, `Velocity`,
`Radius`; `Guid.NewGuid()` is modelled by handing each freshly constructed
entity the current draw counter as its id. -/

structure Entity where
  id : Nat
  ownerId : String
  pos : Vec2
  vel : Vec2
  radius : ℚ
deriving DecidableEq, Repr

instance : Inhabited Entity := ⟨⟨0, "", Vec2.zero, Vec2.zero, 0⟩⟩

/-- `new Leader(ownerId, position, velocity, color)` (radius `LeaderRadius`). -/
def mkLeader (id : Nat) (ownerId : String) (pos vel : Vec2) : Entity :=
  ⟨id, ownerId, pos, vel, leaderRadius⟩

/-- `new Underling(ownerId, position, velocity)` (radius `UnderlingRadius`). -/
def mkUnderling (id : Nat) (ownerId : String) (pos vel : Vec2) : Entity :=
  ⟨id, ownerId, pos, vel, underlingRadius⟩

/-- `GameEntity.Advance(deltaSeconds)` -/
def Entity.advance (dt : ℚ) (e : Entity) : Entity :=
  { e with pos := e.pos + e.vel * dt }

/-! ### Player.cs -/

structure Player where
  connectionId : String
  teamColor : String
  displayName : String
  leader : Entity
  underlings : List Entity
  pendingDirection : Direction
  lastInputAt : ℚ
deriving DecidableEq, Repr

/-- The `Player` constructor: blank display names fall back to the team
color; the leader starts at the origin with zero velocity. `leaderId` models
the `Guid` drawn by `new Leader(...)`. -/
def mkPlayer (now : ℚ) (leaderId : Nat) (connectionId teamColor : String)
    (displayName : Option String) : Player :=
  let dn := match displayName with
    | some s => if s.trim.isEmpty then teamColor else s
    | none => teamColor
  { connectionId := connectionId
    teamColor := teamColor
    displayName := dn
    leader := mkLeader leaderId connectionId Vec2.zero Vec2.zero
    underlings := []
    pendingDirection := .none
    lastInputAt := now }

/-- `Player.UpdateInput(direction)` -/
def Player.updateInput (now : ℚ) (d : Direction) (p : Player) : Player :=
  { p with pendingDirection := d, lastInputAt := now }

/-! ### GameRoom.cs -/

structure Room where
  id : String
  createdAt : ℚ
  lastActivityAt : ℚ
  isActive : Bool
  winnerId : Option String
  winnerBroadcasted : Bool
  players : List Player
deriving DecidableEq, Repr

namespace Room

/-- The `GameRoom(string id)` constructor. -/
def mk0 (id : String) (now : ℚ) : Room :=
  { id := id, createdAt := now, lastActivityAt := now, isActive := false,
    winnerId := none, winnerBroadcasted := false, players := [] }

def containsPlayer (r : Room) (cid : String) : Bool :=
  r.players.any (fun p => p.connectionId == cid)

/-- `TryGetPlayer` -/
def tryGetPlayer (r : Room) (cid : String) : Option Player :=
  r.players.find? (fun p => p.connectionId == cid)

/-- `Touch()` -/
def touch (now : ℚ) (r : Room) : Room := { r with lastActivityAt := now }

/-- `TryAddPlayer`: refuses a third player, and — like
`ConcurrentDictionary.TryAdd` — refuses a duplicate connection id. -/
def tryAddPlayer (now : ℚ) (p : Player) (r : Room) : Room × Bool :=
  if 2 ≤ r.players.length then (r, false)
  else if r.containsPlayer p.connectionId then (r, false)
  else (touch now { r with players := r.players ++ [p] }, true)

/-- `RemovePlayer`: on success touches the room, and deactivates it if it
became empty. -/
def removePlayer (now : ℚ) (cid : String) (r : Room) : Room × Bool :=
  if r.containsPlayer cid then
    let ps := r.players.filter (fun p => ¬(p.connectionId == cid))
    let r1 := touch now { r with players := ps }
    (if ps.isEmpty then { r1 with isActive := false } else r1, true)
  else (r, false)

/-- `ShouldStart` -/
def shouldStart (r : Room) : Bool := r.players.length == 2 && !r.isActive

/-- `Start()` -/
def start (now : ℚ) (r : Room) : Room :=
  touch now { r with isActive := true, winnerId := none, winnerBroadcasted := false }

/-- `Stop(winnerId)` -/
def stop (now : ℚ) (w : Option String) (r : Room) : Room :=
  touch now { r with winnerId := w, isActive := false, winnerBroadcasted := false }

/-- `MarkWinnerBroadcasted()` -/
def markWinnerBroadcasted (r : Room) : Room := { r with winnerBroadcasted := true }

def isEmpty (r : Room) : Bool := r.players.isEmpty

/-- `IsExpired` at the given wall-clock instant. -/
def isExpired (now : ℚ) (r : Room) : Bool :=
  roomInactivityTimeout < now - r.lastActivityAt

end Room

/-! ### Randomness model

`Random.Shared` (and `Guid.NewGuid()`) are modelled by an oracle
`Rng : Nat → RngStep` with an explicit draw counter; every operation that
consumes randomness advances the counter. The oracle's fields are
unconstrained: where the source maps a raw draw into a bounded range
(`Random.Next(3, 6)`), the model applies the same bounding arithmetic. -/

structure RngStep where
  /-- the `NextDouble() < 0.02` wander decision of `MaybeNudgeUnderling` -/
  nudge : Bool
  /-- a `RandomUnitVector()` draw -/
  unitVec : Vec2
  /-- a `RandomFloat(-60, 60)` x-offset draw -/
  offX : ℚ
  /-- a `RandomFloat(-60, 60)` y-offset draw -/
  offY : ℚ
  /-- the raw draw behind `Random.Next(min, maxExclusive)` -/
  count : Nat

abbrev Rng := Nat → RngStep

/-- Threads the draw counter through a list, left to right. -/
def mapThread (f : Nat → α → α × Nat) : Nat → List α → List α × Nat
  | k, [] => ([], k)
  | k, a :: as =>
    let (a', k') := f k a
    let (as', k'') := mapThread f k' as
    (a' :: as', k'')

/-! ### GameManager (src/unnamed/part_001) -/

/-- `InitializePlayerEntities(player, spawnLeft)`: leader to 25 % / 75 % of
the arena width at half height with zero velocity, underlings replaced by a
fresh spawn of `Random.Next(3, 6)` underlings offset from the leader with
random unit-vector velocities at underling speed. -/
def initializePlayerEntities (rng : Rng) (k : Nat) (spawnLeft : Bool) (p : Player) :
    Player × Nat :=
  let leaderX := if spawnLeft then arenaWidth * (1/4 : ℚ) else arenaWidth * (3/4 : ℚ)
  let leaderY := arenaHeight * (1/2 : ℚ)
  let leader := { p.leader with pos := (⟨leaderX, leaderY⟩ : Vec2), vel := Vec2.zero }
  let n := minUnderlingsPerPlayer +
    (rng k).count % (maxUnderlingsPerPlayer + 1 - minUnderlingsPerPlayer)
  let us := (List.range n).map (fun i =>
    let s := rng (k + 1 + i)
    mkUnderling (k + 1 + i) p.connectionId
      (⟨leaderX + s.offX, leaderY + s.offY⟩ : Vec2) (s.unitVec * underlingSpeed))
  ({ p with leader := leader, underlings := us }, k + 1 + n)

/-- Case-insensitive (ordinal) string equality, written over the character
lists so the kernel can evaluate it. -/
def eqIgnoreCase (a b : String) : Bool :=
  a.data.map Char.toLower == b.data.map Char.toLower

/-- `player.TeamColor.Equals("blue", OrdinalIgnoreCase)` in `ResetRoom`. -/
def spawnLeftOf (p : Player) : Bool := eqIgnoreCase p.teamColor "blue"

/-- `ResetRoom(room)`: respawn every player's entities, then touch. -/
def resetRoom (rng : Rng) (k : Nat) (now : ℚ) (r : Room) : Room × Nat :=
  let (ps, k') :=
    mapThread (fun k p => initializePlayerEntities rng k (spawnLeftOf p) p) k r.players
  (Room.touch now { r with players := ps }, k')

/-- `UpdateLeaderMovement(player)`: the pending direction fully overwrites
the leader velocity every tick. -/
def updateLeaderMovement (p : Player) : Player :=
  let desired := p.pendingDirection.toVector
  let v := if desired.lengthSquared > 1/100 then desired.withLength leaderSpeed else desired
  { p with leader := { p.leader with vel := v } }

/-- `MaybeNudgeUnderling(underling)` with the wander decision and the fresh
direction supplied by one oracle step. -/
def maybeNudgeUnderling (s : RngStep) (u : Entity) : Entity :=
  if s.nudge then { u with vel := s.unitVec * underlingSpeed } else u

/-- `BounceOffWalls(entity)`: clamp each axis to
`[radius, arenaDimension - radius]`, negating the matching velocity
component when a clamp fires. -/
def bounceOffWalls (e : Entity) : Entity :=
  let pos := e.pos
  let r := e.radius
  let pv1 : Vec2 × Vec2 :=
    if pos.x - r < 0 then ((⟨r, pos.y⟩ : Vec2), e.vel.bounceX)
    else if pos.x + r > arenaWidth then ((⟨arenaWidth - r, pos.y⟩ : Vec2), e.vel.bounceX)
    else (pos, e.vel)
  let pv2 : Vec2 × Vec2 :=
    if pv1.1.y - r < 0 then ((⟨pv1.1.x, r⟩ : Vec2), pv1.2.bounceY)
    else if pv1.1.y + r > arenaHeight then ((⟨pv1.1.x, arenaHeight - r⟩ : Vec2), pv1.2.bounceY)
    else pv1
  { e with pos := pv2.1, vel := pv2.2 }

/-- One underling's share of the `UpdateRoom` underling loop:
`MaybeNudgeUnderling; Advance; BounceOffWalls`, consuming one draw. -/
def stepUnderling (rng : Rng) (dt : ℚ) (k : Nat) (u : Entity) : Entity × Nat :=
  (bounceOffWalls (Entity.advance dt (maybeNudgeUnderling (rng k) u)), k + 1)

/-- The `foreach underling in players.SelectMany(p => p.Underlings)` loop. -/
def stepPlayersUnderlings (rng : Rng) (dt : ℚ) (k : Nat) (ps : List Player) :
    List Player × Nat :=
  mapThread (fun k p =>
    let (us, k') := mapThread (stepUnderling rng dt) k p.underlings
    ({ p with underlings := us }, k')) k ps

/-- The leader's `Advance; BounceOffWalls` in `UpdateRoom`. -/
def stepLeader (dt : ℚ) (p : Player) : Player :=
  { p with leader := bounceOffWalls (Entity.advance dt p.leader) }

/-- The unordered index pairs `i < j` in the nested loop order of
`ResolveUnderlingCollisions`. -/
def allPairsLt (n : Nat) : List (Nat × Nat) :=
  (List.range n).flatMap (fun i =>
    ((List.range n).filter (fun j => i < j)).map (fun j => (i, j)))

/-- One iteration of `ResolveUnderlingCollisions`' inner loop on the pooled
array: on overlap swap velocities, and push both apart by half the overlap
when the separating direction is nonzero. -/
def uuCollideStep (arr : Array Entity) (ij : Nat × Nat) : Array Entity :=
  let a := arr.getD ij.1 default
  let b := arr.getD ij.2 default
  let distanceSq := Vec2.distanceSquared a.pos b.pos
  let radiusSum := a.radius + b.radius
  if distanceSq < radiusSum * radiusSum then
    let a1 := { a with vel := b.vel }
    let b1 := { b with vel := a.vel }
    let direction := (a.pos - b.pos).normalized
    if direction.lengthSquared > 0 then
      let separation := radiusSum - Vec2.sqrtQ distanceSq
      let a2 := { a1 with pos := a1.pos + direction * (separation / 2) }
      let b2 := { b1 with pos := b1.pos - direction * (separation / 2) }
      (arr.setD ij.1 a2).setD ij.2 b2
    else
      (arr.setD ij.1 a1).setD ij.2 b1
  else arr

/-- Writes the pooled underling list back to its owners, chunk by chunk. -/
def scatterUnderlings : List Player → List Entity → List Player
  | [], _ => []
  | p :: ps, pool =>
    { p with underlings := pool.take p.underlings.length } ::
      scatterUnderlings ps (pool.drop p.underlings.length)

/-- `ResolveUnderlingCollisions(players)`: all underlings of both players
pooled into one list, compared pairwise `i < j`. -/
def resolveUnderlingCollisions (ps : List Player) : List Player :=
  let pool := ps.flatMap (fun p => p.underlings)
  let arr := (allPairsLt pool.length).foldl uuCollideStep pool.toArray
  scatterUnderlings ps arr.toList

/-- The leader–leader part of `ResolveLeaderCollisions(players, room)`
(guarded by `players.Count == 2`). -/
def resolveLeaderLeader (ps : List Player) : List Player :=
  match ps with
  | [p0, p1] =>
    let first := p0.leader
    let second := p1.leader
    let distanceSq := Vec2.distanceSquared first.pos second.pos
    let radiusSum := first.radius + second.radius
    if distanceSq < radiusSum * radiusSum then
      let d0 := (first.pos - second.pos).normalized
      let direction := if d0.lengthSquared == 0 then (⟨1, 0⟩ : Vec2) else d0
      let first' := { first with vel := direction * leaderSpeed,
                                 pos := first.pos + direction * (4 : ℚ) }
      let second' := { second with vel := direction * (-leaderSpeed),
                                   pos := second.pos - direction * (4 : ℚ) }
      [{ p0 with leader := first' }, { p1 with leader := second' }]
    else [p0, p1]
  | other => other

/-- The `for i = Count-1 downTo 0` eating loop of
`ResolveLeaderUnderlingCollisions`, for one leader against one opponent's
underlings. Both the input and the surviving-underling output are in
reversed index order (highest index first). -/
def eatRev (rng : Rng) : Nat → Entity → List Entity → Nat × Entity × List Entity
  | k, leader, [] => (k, leader, [])
  | k, leader, u :: rest =>
    let distanceSq := Vec2.distanceSquared leader.pos u.pos
    let radiusSum := leader.radius + u.radius
    if distanceSq < radiusSum * radiusSum then
      let d0 := (leader.pos - u.pos).normalized
      let pk : Vec2 × Nat :=
        if d0.lengthSquared == 0 then ((rng k).unitVec, k + 1) else (d0, k)
      let leader' := { leader with pos := leader.pos + pk.1 * (6 : ℚ),
                                   vel := pk.1 * leaderSpeed }
      eatRev rng pk.2 leader' rest
    else
      let r := eatRev rng k leader rest
      (r.1, r.2.1, u :: r.2.2)

/-- The ordered `(player, opponent)` index pairs of the two nested
`foreach` loops in `ResolveLeaderUnderlingCollisions`. -/
def rluPairs (n : Nat) : List (Nat × Nat) :=
  (List.range n).flatMap (fun i =>
    ((List.range n).filter (fun j => ¬(j == i))).map (fun j => (i, j)))

/-- One `(player, opponent)` round of `ResolveLeaderUnderlingCollisions`:
player `i`'s leader eats overlapping underlings of player `j`. (The
per-eat `room.Touch()` is subsumed by `updateRoom`'s final touch, which
uses the same instant.) -/
def rluStep (rng : Rng) (st : List Player × Nat) (ij : Nat × Nat) : List Player × Nat :=
  match st.1[ij.1]?, st.1[ij.2]? with
  | some pa, some pb =>
    let r := eatRev rng st.2 pa.leader pb.underlings.reverse
    ((st.1.set ij.1 { pa with leader := r.2.1 }).set ij.2
        { pb with underlings := r.2.2.reverse }, r.1)
  | _, _ => st

/-- `ResolveLeaderUnderlingCollisions(players, room)`. -/
def resolveLeaderUnderlingCollisions (rng : Rng) (k : Nat) (ps : List Player) :
    List Player × Nat :=
  (rluPairs ps.length).foldl (rluStep rng) (ps, k)

/-- `ResolveLeaderCollisions(players, room)`: the leader–leader resolution
followed (as in the source) by the leader–underling resolution. -/
def resolveLeaderCollisions (rng : Rng) (k : Nat) (ps : List Player) :
    List Player × Nat :=
  resolveLeaderUnderlingCollisions rng k (resolveLeaderLeader ps)

/-- `room.Players.FirstOrDefault(p => p != player)` as an index. -/
def firstOtherIdx (n i : Nat) : Option Nat :=
  ((List.range n).filter (fun j => ¬(j == i))).head?

/-- `CheckForWinner(room)`: the first player (in order) whose opponent's
underling collection is empty stops the match as winner. -/
def checkForWinner (now : ℚ) (r : Room) : Room :=
  let ps := r.players
  let w := (List.range ps.length).findSome? (fun i =>
    match ps[i]?, (firstOtherIdx ps.length i).bind (fun j => ps[j]?) with
    | some p, some opp => if opp.underlings.isEmpty then some p.connectionId else none
    | _, _ => none)
  match w with
  | some cid => Room.stop now (some cid) r
  | none => r

/-- `UpdateRoom(room, deltaSeconds)`: the full Simulation Step. -/
def updateRoom (rng : Rng) (k : Nat) (now dt : ℚ) (r : Room) : Room × Nat :=
  let ps0 := r.players.map updateLeaderMovement
  let u1 := stepPlayersUnderlings rng dt k ps0
  let ps2 := u1.1.map (stepLeader dt)
  let ps3 := resolveUnderlingCollisions ps2
  let u4 := resolveLeaderCollisions rng u1.2 ps3
  (Room.touch now (checkForWinner now { r with players := u4.1 }), u4.2)

/-- The per-room outcome of one `TickAsync` iteration: the room's new
state, and the winner id carried by a `GameOver` send (if one fired). -/
structure TickOutcome where
  room : Room
  announced : Option String
  k : Nat
deriving Repr

/-- The tail of `TickAsync`'s per-room body: the
`if (announceWinner && winnerId is not null)` bookkeeping around
`MarkWinnerBroadcasted` and the `GameOver` send. -/
def tickFinish (k : Nat) (r2 : Room) (winnerId : Option String)
    (announce : Bool) : TickOutcome :=
  if announce && winnerId.isSome then
    ⟨Room.markWinnerBroadcasted r2, winnerId, k⟩
  else ⟨r2, none, k⟩

/-- The per-room body of `TickAsync` (transport sends elided; `announced`
records the `GameOver` payload when the send fires). -/
def tickRoom (rng : Rng) (k : Nat) (now dt : ℚ) (r : Room) : TickOutcome :=
  let winnerId0 := r.winnerId
  let announce0 := winnerId0.isSome && !r.winnerBroadcasted
  let s1 : Room × Nat :=
    if r.shouldStart then
      let s := resetRoom rng k now r
      (Room.start now s.1, s.2)
    else (r, k)
  if !s1.1.isActive then tickFinish s1.2 s1.1 winnerId0 announce0
  else
    let u := updateRoom rng s1.2 now dt s1.1
    tickFinish u.2 u.1 u.1.winnerId
      (announce0 || (u.1.winnerId.isSome && !u.1.winnerBroadcasted))

/-! ### Registry-level operations of `GameManager` -/

abbrev Registry := List Room

/-- `_rooms.TryGetValue(roomId, ...)` -/
def getRoom (rooms : Registry) (roomId : String) : Option Room :=
  rooms.find? (fun r => r.id == roomId)

/-- Writing back a mutated room (room ids are unique keys). -/
def setRoomIn (rooms : Registry) (r' : Room) : Registry :=
  rooms.map (fun r => if r.id == r'.id then r' else r)

/-- `CreateRoom(connectionId, displayName)` with the generated fresh room
id passed in (the source's do–while regenerates until unused). In the
source the player is added before its entities are initialised, but the
room holds the player by reference, so the stored result is the same. -/
def createRoom (rng : Rng) (k : Nat) (now : ℚ) (roomId cid : String)
    (displayName : Option String) (rooms : Registry) : Registry × Room × Player × Nat :=
  let room := Room.mk0 roomId now
  let player := mkPlayer now k cid "blue" displayName
  let ip := initializePlayerEntities rng (k + 1) true player
  let ra := room.tryAddPlayer now ip.1
  (rooms ++ [ra.1], ra.1, ip.1, ip.2)

/-- The result of `TryJoinRoom`, mirroring the return value and both `out`
parameters. -/
structure JoinResult where
  rooms : Registry
  success : Bool
  player : Option Player
  error : Option String
  k : Nat

/-- `TryJoinRoom(roomId, connectionId, displayName, out player, out error)`. -/
def tryJoinRoom (rng : Rng) (k : Nat) (now : ℚ) (roomId cid : String)
    (displayName : Option String) (rooms : Registry) : JoinResult :=
  match getRoom rooms roomId with
  | none => ⟨rooms, false, none, some "RoomNotFound", k⟩
  | some room =>
    let existingCount := room.players.length
    if 2 ≤ existingCount then ⟨rooms, false, none, some "RoomFull", k⟩
    else
      let team := if existingCount == 0 then "blue" else "red"
      let player := mkPlayer now k cid team displayName
      let ip := initializePlayerEntities rng (k + 1) (team == "blue") player
      let ra := room.tryAddPlayer now ip.1
      if ra.2 then ⟨setRoomIn rooms ra.1, true, some ip.1, none, ip.2⟩
      else ⟨rooms, false, some ip.1, some "RoomFull", ip.2⟩

/-- `TryRegisterMove(roomId, connectionId, direction)`. -/
def tryRegisterMove (now : ℚ) (roomId cid : String) (d : Direction)
    (rooms : Registry) : Registry × Bool :=
  match getRoom rooms roomId with
  | none => (rooms, false)
  | some room =>
    match room.tryGetPlayer cid with
    | none => (rooms, false)
    | some _ =>
      let room' := Room.touch now { room with
        players := room.players.map (fun p =>
          if p.connectionId == cid then p.updateInput now d else p) }
      (setRoomIn rooms room', true)

/-- The `lock (room.SyncRoot)` block of `HandleDisconnect`: if the room is
still occupied and active, the survivor (`Players.First()`) is declared
winner and the match stopped. -/
def disconnectStopSurvivor (now : ℚ) (r : Room) : Room :=
  if !r.isEmpty && r.isActive then
    match r.players.head? with
    | some remaining => Room.stop now (some remaining.connectionId) r
    | none => r
  else r

/-- The body of `HandleDisconnect`'s loop for one room: skip rooms that do
not hold the connection; otherwise remove the player, stop a still-active
room in favour of the survivor, and drop the room if it became empty. -/
def disconnectRoom (now : ℚ) (cid : String) (room : Room) : Option Room :=
  if room.containsPlayer cid then
    let room2 := disconnectStopSurvivor now (room.removePlayer now cid).1
    if room2.isEmpty then none else some room2
  else some room

/-- `HandleDisconnect(connectionId)`: the loop over all rooms. -/
def handleDisconnect (now : ℚ) (cid : String) (rooms : Registry) : Registry :=
  rooms.filterMap (disconnectRoom now cid)

/-- `TryRestartMatch(roomId)`. -/
def tryRestartMatch (rng : Rng) (k : Nat) (now : ℚ) (roomId : String)
    (rooms : Registry) : Registry × Bool × Nat :=
  match getRoom rooms roomId with
  | none => (rooms, false, k)
  | some room =>
    if room.players.length < 2 then (rooms, false, k)
    else
      let s := resetRoom rng k now room
      (setRoomIn rooms (Room.start now s.1), true, s.2)

/-- `TickAsync(deltaSeconds, ...)` over the whole registry: expired rooms
are dropped, every other room runs `tickRoom`. -/
def tickAll (rng : Rng) (now dt : ℚ) : Nat → Registry → Registry × Nat
  | k, [] => ([], k)
  | k, r :: rest =>
    if r.isExpired now then tickAll rng now dt k rest
    else
      let o := tickRoom rng k now dt r
      let t := tickAll rng now dt o.k rest
      (o.room :: t.1, t.2)

/-! ## Derived observables, invariant definitions and concrete fixtures -/

/-- The per-player underling counts, the observable C3 talks about. -/
def underlingCounts (ps : List Player) : List Nat :=
  ps.map (fun p => p.underlings.length)

/-- The structural invariant every room of the registry maintains. -/
def RoomOk (r : Room) : Prop :=
  r.players.length ≤ 2 ∧
  (r.isActive = true → r.players.length = 2) ∧
  (r.isActive = true → r.winnerId = none)

def RegOk (rooms : Registry) : Prop := ∀ r ∈ rooms, RoomOk r

/-- One public `GameManager` operation on the registry (the room id of
`CreateRoom` is fresh, as the source's do–while guarantees). -/
inductive Step : Registry → Registry → Prop
  | create (rng : Rng) (k : Nat) (now : ℚ) (roomId cid : String)
      (name : Option String) (rooms : Registry)
      (hfresh : getRoom rooms roomId = none) :
      Step rooms (createRoom rng k now roomId cid name rooms).1
  | join (rng : Rng) (k : Nat) (now : ℚ) (roomId cid : String)
      (name : Option String) (rooms : Registry) :
      Step rooms (tryJoinRoom rng k now roomId cid name rooms).rooms
  | move (now : ℚ) (roomId cid : String) (d : Direction) (rooms : Registry) :
      Step rooms (tryRegisterMove now roomId cid d rooms).1
  | disconnect (now : ℚ) (cid : String) (rooms : Registry) :
      Step rooms (handleDisconnect now cid rooms)
  | restart (rng : Rng) (k : Nat) (now : ℚ) (roomId : String) (rooms : Registry) :
      Step rooms (tryRestartMatch rng k now roomId rooms).1
  | tick (rng : Rng) (now dt : ℚ) (k : Nat) (rooms : Registry) :
      Step rooms (tickAll rng now dt k rooms).1

/-- Registry states reachable from the empty registry by public operations. -/
inductive Reach : Registry → Prop
  | nil : Reach []
  | step {s s' : Registry} : Reach s → Step s s' → Reach s'

/-- A trivial oracle for concrete scenarios: never wander, unit vector
`(1,0)`, zero spawn offsets, minimum underling count. -/
def rng0 : Rng := fun _ => ⟨false, ⟨1, 0⟩, 0, 0, 0⟩

def p_c10 : Player := mkPlayer 0 0 "c1" "blue" none

def room_c10 : Room := { Room.mk0 "RM0001" 0 with players := [p_c10] }

def reg_c5 : Registry := (createRoom rng0 0 0 "RM0002" "c1" none []).1

def room_c5 : Room := (createRoom rng0 0 0 "RM0002" "c1" none []).2.1

def reg_c7 : Registry :=
  (tryJoinRoom rng0 10 1 "RM0003" "c2" none
    (createRoom rng0 0 0 "RM0003" "c1" none []).1).rooms

def room_c7 : Room := (getRoom reg_c7 "RM0003").getD (Room.mk0 "" 0)

def pA_c8 : Player :=
  { mkPlayer 0 0 "c1" "blue" none with leader := mkLeader 0 "c1" ⟨480, 320⟩ Vec2.zero }

def pB_c8 : Player :=
  { mkPlayer 0 1 "c2" "red" none with leader := mkLeader 1 "c2" ⟨510, 320⟩ Vec2.zero }

def p0_c2 : Player := { mkPlayer 0 0 "c1" "blue" none with
  leader := mkLeader 0 "c1" ⟨20, 320⟩ Vec2.zero
  underlings := [mkUnderling 2 "c1" ⟨500, 100⟩ Vec2.zero] }

def p1_c2 : Player := { mkPlayer 0 1 "c2" "red" none with
  leader := mkLeader 1 "c2" ⟨50, 320⟩ Vec2.zero
  underlings := [mkUnderling 3 "c2" ⟨500, 500⟩ Vec2.zero] }

def room_c2 : Room :=
  { Room.mk0 "RM0004" 0 with isActive := true, players := [p0_c2, p1_c2] }

def p0_c4 : Player := { mkPlayer 0 0 "c1" "blue" none with
  leader := mkLeader 0 "c1" ⟨200, 100⟩ Vec2.zero
  underlings := [mkUnderling 2 "c1" ⟨490, 320⟩ Vec2.zero] }

def p1_c4 : Player := { mkPlayer 0 1 "c2" "red" none with
  leader := mkLeader 1 "c2" ⟨480, 320⟩ Vec2.zero
  underlings := [mkUnderling 3 "c2" ⟨700, 500⟩ Vec2.zero] }

def room_c4 : Room :=
  { Room.mk0 "RM0005" 0 with isActive := true, players := [p0_c4, p1_c4] }

def regW1 : Registry :=
  (tickAll rng0 2 (3/100) 20
    (tryJoinRoom rng0 10 1 "RMAAAA" "c2" none
      (createRoom rng0 0 0 "RMAAAA" "c1" none []).1).rooms).1

def roomW1 : Room := (getRoom regW1 "RMAAAA").getD (Room.mk0 "" 0)

def regW2 : Registry :=
  (tickAll rng0 2 (3/100) 20
    (tryJoinRoom rng0 10 1 "RMBBBB" "c4" none
      (createRoom rng0 0 0 "RMBBBB" "c3" none []).1).rooms).1

def roomW2 : Room := (getRoom regW2 "RMBBBB").getD (Room.mk0 "" 0)

/-! ## Proofs -/

/-! ### Removal and idempotence (claim C9) -/

@[simp] theorem Room.players_touch (now : ℚ) (r : Room) :
    (Room.touch now r).players = r.players := rfl

@[simp] theorem Room.players_stop (now : ℚ) (w : Option String) (r : Room) :
    (Room.stop now w r).players = r.players := rfl

@[simp] theorem Room.isActive_stop (now : ℚ) (w : Option String) (r : Room) :
    (Room.stop now w r).isActive = false := rfl

@[simp] theorem Room.winnerId_stop (now : ℚ) (w : Option String) (r : Room) :
    (Room.stop now w r).winnerId = w := rfl

@[simp] theorem Room.players_start (now : ℚ) (r : Room) :
    (Room.start now r).players = r.players := rfl

@[simp] theorem Room.isActive_start (now : ℚ) (r : Room) :
    (Room.start now r).isActive = true := rfl

@[simp] theorem Room.winnerId_start (now : ℚ) (r : Room) :
    (Room.start now r).winnerId = none := rfl

@[simp] theorem Room.players_markWinnerBroadcasted (r : Room) :
    (Room.markWinnerBroadcasted r).players = r.players := rfl

@[simp] theorem Room.isActive_touch (now : ℚ) (r : Room) :
    (Room.touch now r).isActive = r.isActive := rfl

@[simp] theorem Room.winnerId_touch (now : ℚ) (r : Room) :
    (Room.touch now r).winnerId = r.winnerId := rfl

@[simp] theorem Room.winnerBroadcasted_touch (now : ℚ) (r : Room) :
    (Room.touch now r).winnerBroadcasted = r.winnerBroadcasted := rfl

@[simp] theorem Room.winnerBroadcasted_stop (now : ℚ) (w : Option String) (r : Room) :
    (Room.stop now w r).winnerBroadcasted = false := rfl

@[simp] theorem Room.winnerBroadcasted_start (now : ℚ) (r : Room) :
    (Room.start now r).winnerBroadcasted = false := rfl

@[simp] theorem Room.winnerBroadcasted_markWinnerBroadcasted (r : Room) :
    (Room.markWinnerBroadcasted r).winnerBroadcasted = true := rfl

@[simp] theorem Room.id_touch (now : ℚ) (r : Room) : (Room.touch now r).id = r.id := rfl

@[simp] theorem Room.isActive_markWinnerBroadcasted (r : Room) :
    (Room.markWinnerBroadcasted r).isActive = r.isActive := rfl

@[simp] theorem Room.winnerId_markWinnerBroadcasted (r : Room) :
    (Room.markWinnerBroadcasted r).winnerId = r.winnerId := rfl

theorem any_filter_not_self (ps : List Player) (cid : String) :
    (ps.filter (fun p => ¬(p.connectionId == cid))).any
      (fun p => p.connectionId == cid) = false := by
  rw [List.any_eq_false]
  intro p hp
  have := List.of_mem_filter hp
  simpa using this

theorem removePlayer_players_of_contains (now : ℚ) (cid : String) (r : Room)
    (h : r.containsPlayer cid = true) :
    ((r.removePlayer now cid).1).players =
      r.players.filter (fun p => ¬(p.connectionId == cid)) := by
  unfold Room.removePlayer
  simp only [h, if_true]
  split <;> rfl

theorem players_disconnectStopSurvivor (now : ℚ) (r : Room) :
    (disconnectStopSurvivor now r).players = r.players := by
  unfold disconnectStopSurvivor
  split
  · split <;> simp
  · rfl

theorem disconnectRoom_players {now : ℚ} {cid : String} {room room' : Room}
    (hc : room.containsPlayer cid = true)
    (h : disconnectRoom now cid room = some room') :
    room'.players = room.players.filter (fun p => ¬(p.connectionId == cid)) := by
  unfold disconnectRoom at h
  simp only [hc, if_true] at h
  split at h
  · exact absurd h (by simp)
  · cases h
    rw [players_disconnectStopSurvivor]
    exact removePlayer_players_of_contains now cid room hc

theorem disconnectRoom_not_contains {now : ℚ} {cid : String} {room room' : Room}
    (h : disconnectRoom now cid room = some room') :
    room'.containsPlayer cid = false := by
  by_cases hc : room.containsPlayer cid
  · unfold Room.containsPlayer
    rw [disconnectRoom_players hc h]
    exact any_filter_not_self _ _
  · unfold disconnectRoom at h
    simp only [hc] at h
    simp only [Bool.false_eq_true, if_false] at h
    cases h
    simpa using hc

theorem filterMap_id_of_mem {α : Type} (g : α → Option α) (l : List α)
    (h : ∀ x ∈ l, g x = some x) : l.filterMap g = l := by
  induction l with
  | nil => rfl
  | cons a l ih =>
    simp only [List.filterMap_cons, h a (by simp)]
    rw [ih (fun x hx => h x (by simp [hx]))]

theorem disconnectRoom_skip {now : ℚ} {cid : String} {room : Room}
    (h : room.containsPlayer cid = false) :
    disconnectRoom now cid room = some room := by
  simp [disconnectRoom, h]

/-- C9 — `removeConnection` / `leaveRoom` is idempotent: applying
`HandleDisconnect` for the same connection twice (at any two instants)
leaves exactly the registry produced by the first application; the second
call is a no-op on the already-absent connection. -/
theorem C9_handleDisconnect_idempotent (now now2 : ℚ) (cid : String) (rooms : Registry) :
    handleDisconnect now2 cid (handleDisconnect now cid rooms) =
      handleDisconnect now cid rooms := by
  apply filterMap_id_of_mem
  intro r hr
  rcases List.mem_filterMap.mp hr with ⟨room, _, hsome⟩
  exact disconnectRoom_skip (disconnectRoom_not_contains hsome)

/-! ### Move intents (claim C10) -/

theorem getRoom_id {rooms : Registry} {roomId : String} {room : Room}
    (h : getRoom rooms roomId = some room) : room.id = roomId := by
  have := List.find?_some h
  simpa using this

theorem getRoom_setRoomIn_ne (rooms : Registry) (r' : Room) (rid : String)
    (h : ¬(r'.id = rid)) :
    getRoom (setRoomIn rooms r') rid = getRoom rooms rid := by
  have h1 : (r'.id == rid) = false := by simpa using h
  induction rooms with
  | nil => rfl
  | cons a l ih =>
    show getRoom ((if (a.id == r'.id) = true then r' else a) :: setRoomIn l r') rid =
      getRoom (a :: l) rid
    unfold getRoom
    simp only [List.find?_cons]
    by_cases ha : (a.id == r'.id) = true
    · have h2 : (a.id == rid) = false := by
        have : a.id = r'.id := by simpa using ha
        simpa [this] using h
      rw [if_pos ha]
      simp only [h1, h2]
      exact ih
    · rw [if_neg ha]
      cases hm : (a.id == rid) with
      | false => simp only [hm]; exact ih
      | true => simp only [hm]

theorem getRoom_setRoomIn_self {rooms : Registry} {roomId : String} {room : Room}
    (h : getRoom rooms roomId = some room) (r' : Room) (hid : r'.id = room.id) :
    getRoom (setRoomIn rooms r') roomId = some r' := by
  have hrid : room.id = roomId := getRoom_id h
  have h1 : (r'.id == roomId) = true := by simp [hid, hrid]
  induction rooms with
  | nil => simp [getRoom] at h
  | cons a l ih =>
    show getRoom ((if (a.id == r'.id) = true then r' else a) :: setRoomIn l r') roomId =
      some r'
    unfold getRoom at h ⊢
    simp only [List.find?_cons] at h ⊢
    cases ha : (a.id == roomId) with
    | true =>
      simp only [ha] at h
      have haroom : a = room := Option.some.inj h
      have hb : (a.id == r'.id) = true := by simp [haroom, hid]
      rw [if_pos hb]
      simp only [h1]
    | false =>
      simp only [ha] at h
      by_cases hb : (a.id == r'.id) = true
      · rw [if_pos hb]
        simp only [h1]
      · rw [if_neg hb]
        simp only [ha]
        exact ih h

theorem connectionId_updateInput (now : ℚ) (d : Direction) (p : Player) :
    (p.updateInput now d).connectionId = p.connectionId := rfl

/-- C10 — a successful move intent (`TryRegisterMove` on a known room and a
known player) returns `true` and updates exactly the player's
`pendingDirection` and `lastInputAt` and the room's `lastActivityAt` (all to
the call's instant/direction), leaving the room's flags, the other players
and the other rooms untouched — in particular the room is not expired at
any instant within the inactivity timeout of the move; a move for an
unknown room or unknown player returns `false` and changes nothing. -/
theorem C10_registerMove_effect (now : ℚ) (roomId cid : String) (d : Direction)
    (rooms : Registry) :
    (getRoom rooms roomId = none →
      tryRegisterMove now roomId cid d rooms = (rooms, false)) ∧
    (∀ room, getRoom rooms roomId = some room →
      (room.tryGetPlayer cid = none →
        tryRegisterMove now roomId cid d rooms = (rooms, false)) ∧
      (∀ p0, room.tryGetPlayer cid = some p0 →
        (tryRegisterMove now roomId cid d rooms).2 = true ∧
        ∃ room', getRoom (tryRegisterMove now roomId cid d rooms).1 roomId = some room' ∧
          room'.tryGetPlayer cid = some (p0.updateInput now d) ∧
          (p0.updateInput now d).pendingDirection = d ∧
          (p0.updateInput now d).lastInputAt = now ∧
          room'.lastActivityAt = now ∧
          room'.isActive = room.isActive ∧
          room'.winnerId = room.winnerId ∧
          room'.winnerBroadcasted = room.winnerBroadcasted ∧
          (∀ p ∈ room.players, ¬(p.connectionId = cid) → p ∈ room'.players) ∧
          (∀ rid, ¬(rid = roomId) →
            getRoom (tryRegisterMove now roomId cid d rooms).1 rid = getRoom rooms rid) ∧
          (∀ t : ℚ, t - now ≤ roomInactivityTimeout → room'.isExpired t = false))) := by
  constructor
  · intro h
    unfold tryRegisterMove
    rw [h]
  · intro room hroom
    constructor
    · intro h2
      unfold tryRegisterMove
      simp only [hroom, h2]
    · intro p0 hp0
      have hbeq : (p0.connectionId == cid) = true := by
        have := List.find?_some hp0
        simpa [Room.tryGetPlayer] using this
      have hreduce : tryRegisterMove now roomId cid d rooms =
          (setRoomIn rooms (Room.touch now { room with
            players := room.players.map (fun p =>
              if p.connectionId == cid then p.updateInput now d else p) }), true) := by
        unfold tryRegisterMove
        simp only [hroom, hp0]
      set f : Player → Player := fun p =>
        if p.connectionId == cid then p.updateInput now d else p with hf
      set room' : Room := Room.touch now { room with players := room.players.map f }
        with hroom'
      have hfcid : ∀ p : Player, ((f p).connectionId == cid) = (p.connectionId == cid) := by
        intro p
        cases hp : (p.connectionId == cid) with
        | true =>
          simp only [hf, hp, if_true]
          rw [connectionId_updateInput, hp]
        | false =>
          simp only [hf, hp, Bool.false_eq_true, if_false]
      refine ⟨by rw [hreduce], room', ?_, ?_, rfl, rfl, rfl, rfl, rfl, rfl, ?_, ?_, ?_⟩
      · rw [hreduce]
        exact getRoom_setRoomIn_self hroom room' rfl
      · show (room.players.map f).find? (fun p => p.connectionId == cid) =
          some (p0.updateInput now d)
        rw [List.find?_map]
        have hcomp : ((fun p : Player => p.connectionId == cid) ∘ f) =
            (fun p : Player => p.connectionId == cid) := by
          funext p
          exact hfcid p
        rw [hcomp]
        have : room.players.find? (fun p => p.connectionId == cid) = some p0 := hp0
        rw [this]
        show some (f p0) = some (p0.updateInput now d)
        simp only [hf, hbeq, if_true]
      · intro p hp hpcid
        show p ∈ room.players.map f
        have hfp : f p = p := by
          have hcidb : (p.connectionId == cid) = false := by simpa using hpcid
          simp only [hf, hcidb, Bool.false_eq_true, if_false]
        exact hfp ▸ List.mem_map_of_mem f hp
      · intro rid hrid
        rw [hreduce]
        have hid : room'.id = room.id := rfl
        exact getRoom_setRoomIn_ne rooms room' rid
          (by rw [hid, getRoom_id hroom]; exact fun h => hrid h.symm)
      · intro t ht
        show (roomInactivityTimeout < t - room'.lastActivityAt : Bool) = false
        have hla : room'.lastActivityAt = now := rfl
        rw [hla]
        simpa using not_lt.mpr ht

/-- Witness for C10 at a concrete registry: a one-player room receives a
move intent; the call succeeds and records the new direction. -/
theorem C10_registerMove_effect_witness :
    (tryRegisterMove 5 "RM0001" "c1" Direction.up [room_c10]).2 = true ∧
    ∃ room', getRoom (tryRegisterMove 5 "RM0001" "c1" Direction.up [room_c10]).1
        "RM0001" = some room' ∧
      room'.tryGetPlayer "c1" = some (p_c10.updateInput 5 Direction.up) := by
  have h := ((C10_registerMove_effect 5 "RM0001" "c1" Direction.up
    [room_c10]).2 room_c10 (by rfl)).2 p_c10 (by rfl)
  rcases h with ⟨h1, room', h2, h3, _⟩
  exact ⟨h1, room', h2, h3⟩

/-! ### Joining rooms (claim C5) -/

/-- Counterexample to C5 as stated: `RM0002` is a known room holding a
single player `c1` (fewer than two), yet a join request for connection `c1`
does not succeed — `TryAddPlayer`'s dictionary insert refuses the duplicate
key and the call reports `RoomFull`. -/
theorem C5_join_counterexample :
    getRoom reg_c5 "RM0002" = some room_c5 ∧
    room_c5.players.length = 1 ∧
    (tryJoinRoom rng0 10 1 "RM0002" "c1" none reg_c5).success = false ∧
    (tryJoinRoom rng0 10 1 "RM0002" "c1" none reg_c5).error = some "RoomFull" ∧
    (tryJoinRoom rng0 10 1 "RM0002" "c1" none reg_c5).rooms = reg_c5 := by
  refine ⟨rfl, rfl, rfl, rfl, rfl⟩

/-- C5 (amended) — `TryJoinRoom`: unknown room id fails with
`RoomNotFound`; a room already holding two players fails with `RoomFull`
(so a third join attempt always yields `RoomFull` and a room never exceeds
2 players); a join whose connection id already belongs to the (not-full)
room also fails with `RoomFull`, leaving the registry unchanged; otherwise
the join succeeds, the new player gets team color `blue` if the room was
empty and `red` if it held one player, and the room grows by that player
(to at most 2). -/
theorem C5_join_amended (rng : Rng) (k : Nat) (now : ℚ) (roomId cid : String)
    (name : Option String) (rooms : Registry) :
    (getRoom rooms roomId = none →
      tryJoinRoom rng k now roomId cid name rooms =
        ⟨rooms, false, none, some "RoomNotFound", k⟩) ∧
    (∀ room, getRoom rooms roomId = some room →
      (2 ≤ room.players.length →
        tryJoinRoom rng k now roomId cid name rooms =
          ⟨rooms, false, none, some "RoomFull", k⟩) ∧
      (room.players.length < 2 → room.containsPlayer cid = true →
        (tryJoinRoom rng k now roomId cid name rooms).success = false ∧
        (tryJoinRoom rng k now roomId cid name rooms).error = some "RoomFull" ∧
        (tryJoinRoom rng k now roomId cid name rooms).rooms = rooms) ∧
      (room.players.length < 2 → room.containsPlayer cid = false →
        (tryJoinRoom rng k now roomId cid name rooms).success = true ∧
        (tryJoinRoom rng k now roomId cid name rooms).error = none ∧
        (∃ p, (tryJoinRoom rng k now roomId cid name rooms).player = some p ∧
          p.connectionId = cid ∧
          p.teamColor = (if room.players.length = 0 then "blue" else "red")) ∧
        (∃ room', getRoom (tryJoinRoom rng k now roomId cid name rooms).rooms roomId =
            some room' ∧
          room'.players.length = room.players.length + 1 ∧
          room'.players.length ≤ 2))) := by
  constructor
  · intro h
    unfold tryJoinRoom
    rw [h]
  · intro room hroom
    refine ⟨?_, ?_, ?_⟩
    · intro hfull
      unfold tryJoinRoom
      simp only [hroom]
      rw [if_pos hfull]
    · intro hlt hc
      unfold tryJoinRoom
      simp only [hroom]
      rw [if_neg (not_le.mpr hlt)]
      unfold Room.tryAddPlayer
      rw [if_neg (not_le.mpr hlt)]
      have hcid : (initializePlayerEntities rng (k + 1)
          ((if room.players.length == 0 then "blue" else "red") == "blue")
          (mkPlayer now k cid (if room.players.length == 0 then "blue" else "red")
            name)).1.connectionId = cid := by
        unfold initializePlayerEntities mkPlayer
        rfl
      rw [hcid, hc]
      simp only [if_true]
      exact ⟨rfl, rfl, rfl⟩
    · intro hlt hc
      unfold tryJoinRoom
      simp only [hroom]
      rw [if_neg (not_le.mpr hlt)]
      unfold Room.tryAddPlayer
      rw [if_neg (not_le.mpr hlt)]
      have hcid : (initializePlayerEntities rng (k + 1)
          ((if room.players.length == 0 then "blue" else "red") == "blue")
          (mkPlayer now k cid (if room.players.length == 0 then "blue" else "red")
            name)).1.connectionId = cid := by
        unfold initializePlayerEntities mkPlayer
        rfl
      rw [hcid, hc]
      simp only [Bool.false_eq_true, if_false]
      refine ⟨rfl, rfl, ⟨_, rfl, hcid, ?_⟩, ?_⟩
      · show (mkPlayer now k cid _ name).teamColor = _
        unfold mkPlayer
        by_cases h0 : room.players.length = 0
        · simp [h0]
        · have : (room.players.length == 0) = false := by simpa using h0
          simp [this, h0]
      · refine ⟨_, getRoom_setRoomIn_self hroom _ rfl, ?_, ?_⟩
        · show (room.players ++ [_]).length = room.players.length + 1
          simp
        · show (room.players ++ [_]).length ≤ 2
          simp
          omega

/-- Witness for the amended C5: joining the one-player room `RM0002` with
the fresh connection `c2` succeeds and assigns team color `red`. -/
theorem C5_join_amended_witness :
    (tryJoinRoom rng0 10 1 "RM0002" "c2" none reg_c5).success = true ∧
    (tryJoinRoom rng0 10 1 "RM0002" "c2" none reg_c5).error = none ∧
    ∃ p, (tryJoinRoom rng0 10 1 "RM0002" "c2" none reg_c5).player = some p ∧
      p.connectionId = "c2" ∧
      p.teamColor = (if room_c5.players.length = 0 then "blue" else "red") := by
  have h := (((C5_join_amended rng0 10 1 "RM0002" "c2" none reg_c5).2 room_c5
    rfl).2.2) (by decide) (by rfl)
  exact ⟨h.1, h.2.1, h.2.2.1⟩

/-! ### Restart (claim C7) -/

theorem connectionId_initializePlayerEntities (rng : Rng) (k : Nat) (sl : Bool) (p : Player) :
    ((initializePlayerEntities rng k sl p).1).connectionId = p.connectionId := rfl

theorem teamColor_initializePlayerEntities (rng : Rng) (k : Nat) (sl : Bool) (p : Player) :
    ((initializePlayerEntities rng k sl p).1).teamColor = p.teamColor := rfl

theorem leader_vel_initializePlayerEntities (rng : Rng) (k : Nat) (sl : Bool) (p : Player) :
    ((initializePlayerEntities rng k sl p).1).leader.vel = Vec2.zero := rfl

theorem leader_pos_initializePlayerEntities (rng : Rng) (k : Nat) (sl : Bool) (p : Player) :
    ((initializePlayerEntities rng k sl p).1).leader.pos =
      ⟨if sl then arenaWidth * (1/4 : ℚ) else arenaWidth * (3/4 : ℚ),
        arenaHeight * (1/2 : ℚ)⟩ := rfl

theorem count_initializePlayerEntities (rng : Rng) (k : Nat) (sl : Bool) (p : Player) :
    minUnderlingsPerPlayer ≤ ((initializePlayerEntities rng k sl p).1).underlings.length ∧
    ((initializePlayerEntities rng k sl p).1).underlings.length ≤ maxUnderlingsPerPlayer := by
  unfold initializePlayerEntities
  simp only [List.length_map, List.length_range]
  unfold minUnderlingsPerPlayer maxUnderlingsPerPlayer
  have : (rng k).count % (5 + 1 - 3) < 5 + 1 - 3 := Nat.mod_lt _ (by decide)
  omega

theorem mapThread_forall {α : Type} {f : Nat → α → α × Nat} {P : α → Prop}
    (h : ∀ k a, P (f k a).1) : ∀ (k : Nat) (l : List α), ∀ b ∈ (mapThread f k l).1, P b := by
  intro k l
  induction l generalizing k with
  | nil => intro b hb; simp [mapThread] at hb
  | cons a l ih =>
    intro b hb
    simp only [mapThread] at hb
    rcases List.mem_cons.mp hb with h1 | h2
    · exact h1 ▸ h k a
    · exact ih _ b h2

theorem mapThread_map_eq {α β : Type} {f : Nat → α → α × Nat} {g : α → β}
    (h : ∀ k a, g (f k a).1 = g a) :
    ∀ (k : Nat) (l : List α), ((mapThread f k l).1).map g = l.map g := by
  intro k l
  induction l generalizing k with
  | nil => rfl
  | cons a l ih =>
    simp only [mapThread, List.map_cons, h k a, ih]

theorem mapThread_length {α : Type} (f : Nat → α → α × Nat) (k : Nat) (l : List α) :
    ((mapThread f k l).1).length = l.length := by
  induction l generalizing k with
  | nil => rfl
  | cons a l ih => simp only [mapThread, List.length_cons, ih]

theorem players_resetRoom (rng : Rng) (k : Nat) (now : ℚ) (r : Room) :
    ((resetRoom rng k now r).1).players =
      (mapThread (fun k p => initializePlayerEntities rng k (spawnLeftOf p) p)
        k r.players).1 := rfl

/-- C7 — `TryRestartMatch` returns `false` and leaves the registry
unchanged when the room is unknown or holds fewer than 2 players; with
exactly 2 players it succeeds and — regardless of the prior match outcome —
fully respawns both players (leader repositioned at its spawn point with
zero velocity, underlings replaced by a fresh spawn of 3–5), activates the
room and clears `winnerId` and `winnerBroadcasted`, preserving player
identities and team colors. -/
theorem C7_restart (rng : Rng) (k : Nat) (now : ℚ) (roomId : String)
    (rooms : Registry) :
    (getRoom rooms roomId = none →
      tryRestartMatch rng k now roomId rooms = (rooms, false, k)) ∧
    (∀ room, getRoom rooms roomId = some room →
      (room.players.length < 2 →
        tryRestartMatch rng k now roomId rooms = (rooms, false, k)) ∧
      (room.players.length = 2 →
        (tryRestartMatch rng k now roomId rooms).2.1 = true ∧
        ∃ room', getRoom (tryRestartMatch rng k now roomId rooms).1 roomId = some room' ∧
          room'.isActive = true ∧
          room'.winnerId = none ∧
          room'.winnerBroadcasted = false ∧
          room'.players.length = 2 ∧
          (∀ q ∈ room'.players,
            q.leader.vel = Vec2.zero ∧
            q.leader.pos = ⟨if spawnLeftOf q then arenaWidth * (1/4 : ℚ)
                else arenaWidth * (3/4 : ℚ), arenaHeight * (1/2 : ℚ)⟩ ∧
            minUnderlingsPerPlayer ≤ q.underlings.length ∧
            q.underlings.length ≤ maxUnderlingsPerPlayer) ∧
          ((room'.players).map (fun q => (q.connectionId, q.teamColor)) =
            (room.players).map (fun q => (q.connectionId, q.teamColor))))) := by
  constructor
  · intro h
    unfold tryRestartMatch
    rw [h]
  · intro room hroom
    constructor
    · intro hlt
      unfold tryRestartMatch
      simp only [hroom]
      rw [if_pos hlt]
    · intro h2
      unfold tryRestartMatch
      simp only [hroom]
      rw [if_neg (by omega : ¬room.players.length < 2)]
      refine ⟨rfl, Room.start now (resetRoom rng k now room).1,
        getRoom_setRoomIn_self hroom _ rfl, rfl, rfl, rfl, ?_, ?_, ?_⟩
      · show ((resetRoom rng k now room).1).players.length = 2
        rw [players_resetRoom, mapThread_length, h2]
      · intro q hq
        have hq' : q ∈ (mapThread (fun k p =>
            initializePlayerEntities rng k (spawnLeftOf p) p) k room.players).1 := by
          rw [← players_resetRoom rng k now room]
          exact hq
        refine mapThread_forall (P := fun b => b.leader.vel = Vec2.zero ∧
          b.leader.pos = ⟨if spawnLeftOf b then arenaWidth * (1/4 : ℚ)
            else arenaWidth * (3/4 : ℚ), arenaHeight * (1/2 : ℚ)⟩ ∧
          minUnderlingsPerPlayer ≤ b.underlings.length ∧
          b.underlings.length ≤ maxUnderlingsPerPlayer) ?_ k room.players q hq'
        intro k' a
        refine ⟨leader_vel_initializePlayerEntities rng k' (spawnLeftOf a) a, ?_,
          count_initializePlayerEntities rng k' (spawnLeftOf a) a⟩
        have hsl : spawnLeftOf ((initializePlayerEntities rng k'
            (spawnLeftOf a) a).1) = spawnLeftOf a := by
          unfold spawnLeftOf
          rw [teamColor_initializePlayerEntities]
        rw [hsl]
        exact leader_pos_initializePlayerEntities rng k' (spawnLeftOf a) a
      · show ((resetRoom rng k now room).1).players.map _ = _
        rw [players_resetRoom]
        exact mapThread_map_eq (fun k' a => rfl) k room.players

/-- Witness for C7 at a concrete two-player room: the restart succeeds and
reactivates the room with cleared winner state. -/
theorem C7_restart_witness :
    (tryRestartMatch rng0 20 2 "RM0003" reg_c7).2.1 = true ∧
    ∃ room', getRoom (tryRestartMatch rng0 20 2 "RM0003" reg_c7).1 "RM0003" =
        some room' ∧
      room'.isActive = true ∧ room'.winnerId = none ∧
      room'.winnerBroadcasted = false ∧ room'.players.length = 2 := by
  have h := ((C7_restart rng0 20 2 "RM0003" reg_c7).2 room_c7 rfl).2 (by rfl)
  rcases h with ⟨h1, room', h2, h3, h4, h5, h6, _⟩
  exact ⟨h1, room', h2, h3, h4, h5, h6⟩

/-! ### Leader–leader collision (claim C8) -/

theorem Vec2.ext_xy {a b : Vec2} (hx : a.x = b.x) (hy : a.y = b.y) : a = b := by
  cases a; cases b; cases hx; cases hy; rfl

theorem leaderSpeed_val : leaderSpeed = 160 := rfl

@[simp] theorem Vec2.x_add (a b : Vec2) : (a + b).x = a.x + b.x := rfl
@[simp] theorem Vec2.y_add (a b : Vec2) : (a + b).y = a.y + b.y := rfl
@[simp] theorem Vec2.x_sub (a b : Vec2) : (a - b).x = a.x - b.x := rfl
@[simp] theorem Vec2.y_sub (a b : Vec2) : (a - b).y = a.y - b.y := rfl
@[simp] theorem Vec2.x_hmul (v : Vec2) (s : ℚ) : (v * s).x = v.x * s := rfl
@[simp] theorem Vec2.y_hmul (v : Vec2) (s : ℚ) : (v * s).y = v.y * s := rfl

/-- Reduction of the leader–leader resolution when the two leaders overlap,
with the separating direction (fallback included) given explicitly. -/
theorem resolveLeaderLeader_hit (p0 p1 : Player) (dir : Vec2)
    (hcol : Vec2.distanceSquared p0.leader.pos p1.leader.pos <
      (p0.leader.radius + p1.leader.radius) * (p0.leader.radius + p1.leader.radius))
    (hdir : (if ((p0.leader.pos - p1.leader.pos).normalized.lengthSquared == 0)
        then (⟨1, 0⟩ : Vec2) else (p0.leader.pos - p1.leader.pos).normalized) = dir) :
    resolveLeaderLeader [p0, p1] =
      [{ p0 with leader := { p0.leader with
          vel := dir * leaderSpeed
          pos := p0.leader.pos + dir * (4 : ℚ) } },
       { p1 with leader := { p1.leader with
          vel := dir * (-leaderSpeed)
          pos := p1.leader.pos - dir * (4 : ℚ) } }] := by
  subst hdir
  simp only [resolveLeaderLeader]
  rw [if_pos hcol]

set_option maxRecDepth 8000 in
/-- C8 — leader–leader collision resolution. First part: two leaders of
radius 18 at center distance 30 (< 36, not coincident) both receive
velocity of squared magnitude exactly the leader speed squared, opposite to
one another, each pointing away from the other leader along the connecting
normal (positive dot product with the outward normal), and each is nudged
4 units along that normal (their centers end up 38 apart). Second part:
coincident leaders use the fallback direction `(1,0)`. -/
theorem C8_leader_collision :
    (∀ p0 p1 : Player, p0.leader.radius = leaderRadius →
      p1.leader.radius = leaderRadius →
      Vec2.distanceSquared p0.leader.pos p1.leader.pos = 900 →
      ∃ q0 q1, resolveLeaderLeader [p0, p1] = [q0, q1] ∧
        q0.leader.vel.lengthSquared = leaderSpeed * leaderSpeed ∧
        q1.leader.vel.lengthSquared = leaderSpeed * leaderSpeed ∧
        q0.leader.vel + q1.leader.vel = Vec2.zero ∧
        Vec2.dot q0.leader.vel (p0.leader.pos - p1.leader.pos) = leaderSpeed * 30 ∧
        Vec2.dot q1.leader.vel (p1.leader.pos - p0.leader.pos) = leaderSpeed * 30 ∧
        q0.leader.pos = p0.leader.pos + (p0.leader.pos - p1.leader.pos) * (4/30 : ℚ) ∧
        q1.leader.pos = p1.leader.pos - (p0.leader.pos - p1.leader.pos) * (4/30 : ℚ) ∧
        Vec2.distanceSquared q0.leader.pos q1.leader.pos = 38 * 38) ∧
    (∀ p0 p1 : Player, p0.leader.radius = leaderRadius →
      p1.leader.radius = leaderRadius →
      p0.leader.pos = p1.leader.pos →
      ∃ q0 q1, resolveLeaderLeader [p0, p1] = [q0, q1] ∧
        q0.leader.vel = ⟨leaderSpeed, 0⟩ ∧
        q1.leader.vel = ⟨-leaderSpeed, 0⟩ ∧
        q0.leader.pos = p0.leader.pos + (⟨4, 0⟩ : Vec2) ∧
        q1.leader.pos = p1.leader.pos - (⟨4, 0⟩ : Vec2)) := by
  constructor
  · intro p0 p1 hr0 hr1 hd
    have hxy : (p0.leader.pos.x - p1.leader.pos.x) * (p0.leader.pos.x - p1.leader.pos.x) +
        (p0.leader.pos.y - p1.leader.pos.y) * (p0.leader.pos.y - p1.leader.pos.y) = 900 := hd
    have hΔ : Vec2.lengthSquared (p0.leader.pos - p1.leader.pos) = 900 := hd
    have hlen : Vec2.length (p0.leader.pos - p1.leader.pos) = 30 := by
      unfold Vec2.length
      rw [hΔ]
      decide
    have hnorm : (p0.leader.pos - p1.leader.pos).normalized =
        ⟨(p0.leader.pos - p1.leader.pos).x / 30,
         (p0.leader.pos - p1.leader.pos).y / 30⟩ := by
      simp only [Vec2.normalized]
      rw [hlen]
      rw [if_pos (by norm_num : (30 : ℚ) > 1 / 10000)]
    have hsq1 : (⟨(p0.leader.pos - p1.leader.pos).x / 30,
        (p0.leader.pos - p1.leader.pos).y / 30⟩ : Vec2).lengthSquared = 1 := by
      simp only [Vec2.lengthSquared, Vec2.x_sub, Vec2.y_sub]
      linear_combination (1/900 : ℚ) * hxy
    have hdir : (if ((p0.leader.pos - p1.leader.pos).normalized.lengthSquared == 0)
        then (⟨1, 0⟩ : Vec2) else (p0.leader.pos - p1.leader.pos).normalized) =
        ⟨(p0.leader.pos - p1.leader.pos).x / 30,
         (p0.leader.pos - p1.leader.pos).y / 30⟩ := by
      rw [hnorm, hsq1]
      norm_num
    have hcol : Vec2.distanceSquared p0.leader.pos p1.leader.pos <
        (p0.leader.radius + p1.leader.radius) * (p0.leader.radius + p1.leader.radius) := by
      rw [hd, hr0, hr1]
      norm_num [leaderRadius]
    refine ⟨_, _, resolveLeaderLeader_hit p0 p1 _ hcol hdir, ?_, ?_, ?_, ?_, ?_, ?_, ?_, ?_⟩
    · simp only [Vec2.lengthSquared, Vec2.x_hmul, Vec2.y_hmul, Vec2.x_sub, Vec2.y_sub,
        leaderSpeed_val]
      linear_combination (256/9 : ℚ) * hxy
    · simp only [Vec2.lengthSquared, Vec2.x_hmul, Vec2.y_hmul, Vec2.x_sub, Vec2.y_sub,
        leaderSpeed_val]
      linear_combination (256/9 : ℚ) * hxy
    · refine Vec2.ext_xy ?_ ?_ <;>
      · simp only [Vec2.x_add, Vec2.y_add, Vec2.x_hmul, Vec2.y_hmul, Vec2.x_sub,
          Vec2.y_sub, Vec2.zero]
        ring
    · simp only [Vec2.dot, Vec2.x_hmul, Vec2.y_hmul, Vec2.x_sub, Vec2.y_sub,
        leaderSpeed_val]
      linear_combination (16/3 : ℚ) * hxy
    · simp only [Vec2.dot, Vec2.x_hmul, Vec2.y_hmul, Vec2.x_sub, Vec2.y_sub,
        leaderSpeed_val]
      linear_combination (16/3 : ℚ) * hxy
    · refine Vec2.ext_xy ?_ ?_ <;>
      · simp only [Vec2.x_add, Vec2.y_add, Vec2.x_hmul, Vec2.y_hmul, Vec2.x_sub,
          Vec2.y_sub]
        ring
    · refine Vec2.ext_xy ?_ ?_ <;>
      · simp only [Vec2.x_add, Vec2.y_add, Vec2.x_hmul, Vec2.y_hmul, Vec2.x_sub,
          Vec2.y_sub]
        ring
    · simp only [Vec2.distanceSquared, Vec2.x_add, Vec2.y_add, Vec2.x_hmul, Vec2.y_hmul,
        Vec2.x_sub, Vec2.y_sub]
      linear_combination (361/225 : ℚ) * hxy
  · intro p0 p1 hr0 hr1 hpos
    have hΔ : Vec2.lengthSquared (p0.leader.pos - p1.leader.pos) = 0 := by
      simp only [Vec2.lengthSquared, Vec2.x_sub, Vec2.y_sub, hpos]
      ring
    have hlen : Vec2.length (p0.leader.pos - p1.leader.pos) = 0 := by
      unfold Vec2.length
      rw [hΔ]
      decide
    have hnorm : (p0.leader.pos - p1.leader.pos).normalized = Vec2.zero := by
      simp only [Vec2.normalized]
      rw [hlen]
      rw [if_neg (by norm_num : ¬((0 : ℚ) > 1 / 10000))]
    have hdir : (if ((p0.leader.pos - p1.leader.pos).normalized.lengthSquared == 0)
        then (⟨1, 0⟩ : Vec2) else (p0.leader.pos - p1.leader.pos).normalized) =
        (⟨1, 0⟩ : Vec2) := by
      rw [hnorm]
      norm_num [Vec2.zero, Vec2.lengthSquared]
    have hcol : Vec2.distanceSquared p0.leader.pos p1.leader.pos <
        (p0.leader.radius + p1.leader.radius) * (p0.leader.radius + p1.leader.radius) := by
      have h0 : Vec2.distanceSquared p0.leader.pos p1.leader.pos = 0 := hΔ
      rw [h0, hr0, hr1]
      norm_num [leaderRadius]
    refine ⟨_, _, resolveLeaderLeader_hit p0 p1 _ hcol hdir, ?_, ?_, ?_, ?_⟩
    · refine Vec2.ext_xy ?_ ?_ <;>
      · simp only [Vec2.x_hmul, Vec2.y_hmul]
        ring
    · refine Vec2.ext_xy ?_ ?_ <;>
      · simp only [Vec2.x_hmul, Vec2.y_hmul]
        ring
    · refine Vec2.ext_xy ?_ ?_ <;>
      · simp only [Vec2.x_add, Vec2.y_add, Vec2.x_hmul, Vec2.y_hmul]
        ring
    · refine Vec2.ext_xy ?_ ?_ <;>
      · simp only [Vec2.x_sub, Vec2.y_sub, Vec2.x_hmul, Vec2.y_hmul]
        ring

/-- Witness for C8 at a concrete pair of leaders 30 apart. -/
theorem C8_leader_collision_witness :
    Vec2.distanceSquared pA_c8.leader.pos pB_c8.leader.pos = 900 ∧
    ∃ q0 q1, resolveLeaderLeader [pA_c8, pB_c8] = [q0, q1] ∧
      q0.leader.vel.lengthSquared = leaderSpeed * leaderSpeed ∧
      q0.leader.vel + q1.leader.vel = Vec2.zero := by
  have hd : Vec2.distanceSquared pA_c8.leader.pos pB_c8.leader.pos = 900 := by decide
  have h := C8_leader_collision.1 pA_c8 pB_c8 rfl rfl hd
  rcases h with ⟨q0, q1, h1, h2, _, h4, _⟩
  exact ⟨hd, q0, q1, h1, h2, h4⟩

/-! ### Wall bounds (claim C2) -/

set_option maxRecDepth 40000 in
/-- Counterexample to C2 as stated: after one complete `UpdateRoom` on an
active room whose leaders (radius 18) start in bounds at `(20,320)` and
`(50,320)` with no movement, the first leader ends at `x = 16 < 18` —
outside `[radius, arenaWidth - radius]` — because the leader–leader nudge
of 4 units runs after the wall-bounce clamp. -/
theorem C2_counterexample :
    room_c2.isActive = true ∧
    ((updateRoom rng0 0 5 (3/100) room_c2).1).players.map
      (fun p => p.leader.pos.x) = [16, 54] ∧
    ((updateRoom rng0 0 5 (3/100) room_c2).1).players.map
      (fun p => p.leader.radius) = [18, 18] ∧
    ¬((18 : ℚ) ≤ 16) := by
  exact ⟨rfl, by decide, by decide, by decide⟩

/-- C2 (amended) — immediately after its wall-bounce sub-step
(`BounceOffWalls`, which runs right after each entity integrates), every
entity's position lies within `[radius, arenaWidth - radius]` on x and
`[radius, arenaHeight - radius]` on y; the collision-resolution sub-steps
that follow within the same Simulation Step may displace an entity out of
this range. -/
theorem C2_bounce_in_bounds (e : Entity) (hw : 2 * e.radius ≤ arenaWidth)
    (hh : 2 * e.radius ≤ arenaHeight) :
    e.radius ≤ (bounceOffWalls e).pos.x ∧
    (bounceOffWalls e).pos.x ≤ arenaWidth - e.radius ∧
    e.radius ≤ (bounceOffWalls e).pos.y ∧
    (bounceOffWalls e).pos.y ≤ arenaHeight - e.radius := by
  simp only [bounceOffWalls]
  split_ifs with h1 h2 h3 h4 h5 h6 h7 h8 <;>
    refine ⟨?_, ?_, ?_, ?_⟩ <;> simp <;> linarith

/-- Witness for the amended C2: an entity of radius 18 that integrated to
`(-5, 700)` is clamped back into the arena. -/
theorem C2_bounce_in_bounds_witness :
    2 * (18 : ℚ) ≤ arenaWidth ∧ 2 * (18 : ℚ) ≤ arenaHeight ∧
    ((18 : ℚ) ≤ (bounceOffWalls (mkLeader 0 "c1" ⟨-5, 700⟩ ⟨-10, 10⟩)).pos.x ∧
      (bounceOffWalls (mkLeader 0 "c1" ⟨-5, 700⟩ ⟨-10, 10⟩)).pos.x ≤ arenaWidth - 18 ∧
      (18 : ℚ) ≤ (bounceOffWalls (mkLeader 0 "c1" ⟨-5, 700⟩ ⟨-10, 10⟩)).pos.y ∧
      (bounceOffWalls (mkLeader 0 "c1" ⟨-5, 700⟩ ⟨-10, 10⟩)).pos.y ≤ arenaHeight - 18) := by
  refine ⟨by decide, by decide, ?_⟩
  exact C2_bounce_in_bounds (mkLeader 0 "c1" ⟨-5, 700⟩ ⟨-10, 10⟩) (by decide) (by decide)

/-! ### Underling-count monotonicity (claim C3) -/

theorem counts_map_eq {f : Player → Player}
    (h : ∀ p, (f p).underlings.length = p.underlings.length) (ps : List Player) :
    underlingCounts (ps.map f) = underlingCounts ps := by
  unfold underlingCounts
  rw [List.map_map]
  exact List.map_congr_left (fun p _ => h p)

theorem counts_stepPlayersUnderlings (rng : Rng) (dt : ℚ) (k : Nat) (ps : List Player) :
    underlingCounts (stepPlayersUnderlings rng dt k ps).1 = underlingCounts ps := by
  unfold stepPlayersUnderlings underlingCounts
  refine mapThread_map_eq (fun k p => ?_) k ps
  simp only
  rw [mapThread_length]

theorem size_uuCollideStep (arr : Array Entity) (ij : Nat × Nat) :
    (uuCollideStep arr ij).size = arr.size := by
  simp only [uuCollideStep]
  split_ifs <;> simp [Array.size_setD]

theorem size_foldl_uu (pairs : List (Nat × Nat)) (arr : Array Entity) :
    (pairs.foldl uuCollideStep arr).size = arr.size := by
  induction pairs generalizing arr with
  | nil => rfl
  | cons p t ih => rw [List.foldl_cons, ih, size_uuCollideStep]

theorem counts_scatter (ps : List Player) (pool : List Entity)
    (h : pool.length = (underlingCounts ps).sum) :
    underlingCounts (scatterUnderlings ps pool) = underlingCounts ps := by
  induction ps generalizing pool with
  | nil => rfl
  | cons p t ih =>
    have hsum : pool.length = p.underlings.length + (underlingCounts t).sum := by
      rw [h]
      simp [underlingCounts]
    show underlingCounts ({ p with underlings := pool.take p.underlings.length } ::
      scatterUnderlings t (pool.drop p.underlings.length)) = _
    unfold underlingCounts
    simp only [List.map_cons]
    rw [show ({ p with underlings := pool.take p.underlings.length } : Player).underlings.length
      = (pool.take p.underlings.length).length from rfl]
    rw [List.length_take]
    have h1 : min p.underlings.length pool.length = p.underlings.length := by omega
    rw [h1]
    have h2 := ih (pool.drop p.underlings.length) (by rw [List.length_drop]; omega)
    unfold underlingCounts at h2
    rw [h2]

theorem counts_resolveUnderlingCollisions (ps : List Player) :
    underlingCounts (resolveUnderlingCollisions ps) = underlingCounts ps := by
  unfold resolveUnderlingCollisions
  apply counts_scatter
  rw [Array.length_toList, size_foldl_uu]
  rw [show ((ps.flatMap fun p => p.underlings).toArray).size =
    (ps.flatMap fun p => p.underlings).length from rfl]
  rw [List.length_flatMap]
  rfl

theorem counts_resolveLeaderLeader (ps : List Player) :
    underlingCounts (resolveLeaderLeader ps) = underlingCounts ps := by
  rcases ps with _ | ⟨p0, _ | ⟨p1, _ | ⟨p2, t⟩⟩⟩
  · rfl
  · rfl
  · show underlingCounts (resolveLeaderLeader [p0, p1]) = _
    simp only [resolveLeaderLeader]
    split
    · rfl
    · rfl
  · rfl

theorem length_eatRev (rng : Rng) :
    ∀ (k : Nat) (L : Entity) (us : List Entity),
      (eatRev rng k L us).2.2.length ≤ us.length := by
  intro k L us
  induction us generalizing k L with
  | nil => simp [eatRev]
  | cons u rest ih =>
    simp only [eatRev]
    split_ifs with h h2
    · exact le_trans (ih _ _) (by simp)
    · exact le_trans (ih _ _) (by simp)
    · exact Nat.succ_le_succ (ih _ _)

theorem countsD_set_le {ps : List Player} {m : Nat} {q pm : Player}
    (hm : ps[m]? = some pm) (hle : q.underlings.length ≤ pm.underlings.length)
    (i : Nat) :
    (underlingCounts (ps.set m q)).getD i 0 ≤ (underlingCounts ps).getD i 0 := by
  have hmlt : m < ps.length := by
    by_contra hge
    rw [List.getElem?_eq_none (by omega)] at hm
    exact Option.noConfusion hm
  unfold underlingCounts
  rw [List.map_set]
  by_cases hi : i = m
  · subst hi
    rw [List.getD_eq_getElem?_getD, List.getD_eq_getElem?_getD]
    rw [List.getElem?_set_self (by simpa using hmlt), List.getElem?_map]
    rw [hm]
    simpa using hle
  · rw [List.getD_eq_getElem?_getD, List.getD_eq_getElem?_getD,
      List.getElem?_set_ne (by omega)]

theorem counts_rluStep_le (rng : Rng) (st : List Player × Nat) (ij : Nat × Nat) :
    (rluStep rng st ij).1.length = st.1.length ∧
    ∀ i, (underlingCounts (rluStep rng st ij).1).getD i 0 ≤
      (underlingCounts st.1).getD i 0 := by
  obtain ⟨i1, i2⟩ := ij
  unfold rluStep
  cases hpa : st.1[i1]? with
  | none => exact ⟨rfl, fun i => le_refl _⟩
  | some pa =>
    cases hpb : st.1[i2]? with
    | none => exact ⟨rfl, fun i => le_refl _⟩
    | some pb =>
      simp only
      constructor
      · rw [List.length_set, List.length_set]
      · have hkeptle :
            (eatRev rng st.2 pa.leader pb.underlings.reverse).2.2.reverse.length ≤
              pb.underlings.length := by
          rw [List.length_reverse]
          have h0 := length_eatRev rng st.2 pa.leader pb.underlings.reverse
          rw [List.length_reverse] at h0
          exact h0
        have h1 : ∀ j, (underlingCounts (st.1.set i1 { pa with leader :=
            (eatRev rng st.2 pa.leader pb.underlings.reverse).2.1 })).getD j 0 ≤
            (underlingCounts st.1).getD j 0 := by
          intro j
          exact @countsD_set_le st.1 i1 ({ pa with leader :=
            (eatRev rng st.2 pa.leader pb.underlings.reverse).2.1 }) pa hpa
            (le_of_eq rfl) j
        have h2 : ∀ j, (underlingCounts ((st.1.set i1 { pa with leader :=
            (eatRev rng st.2 pa.leader pb.underlings.reverse).2.1 }).set i2
              { pb with underlings :=
                (eatRev rng st.2 pa.leader pb.underlings.reverse).2.2.reverse })).getD j 0 ≤
            (underlingCounts (st.1.set i1 { pa with leader :=
              (eatRev rng st.2 pa.leader pb.underlings.reverse).2.1 })).getD j 0 := by
          intro j
          by_cases hij : i2 = i1
          · subst hij
            have hpab : pa = pb := by
              rw [hpa] at hpb
              exact Option.some.inj hpb
            subst hpab
            have hlt : i2 < st.1.length := by
              by_contra hge
              rw [List.getElem?_eq_none (by omega)] at hpa
              exact Option.noConfusion hpa
            have hm1 : (st.1.set i2 { pa with leader :=
                (eatRev rng st.2 pa.leader pa.underlings.reverse).2.1 })[i2]? =
                some { pa with leader :=
                  (eatRev rng st.2 pa.leader pa.underlings.reverse).2.1 } :=
              List.getElem?_set_self (by simpa using hlt)
            have hgoal : ({ pa with underlings :=
                (eatRev rng st.2 pa.leader pa.underlings.reverse).2.2.reverse } :
                  Player).underlings.length ≤
                ({ pa with leader :=
                  (eatRev rng st.2 pa.leader pa.underlings.reverse).2.1 } :
                    Player).underlings.length := hkeptle
            exact countsD_set_le hm1 hgoal j
          · have hm1 : (st.1.set i1 { pa with leader :=
                (eatRev rng st.2 pa.leader pb.underlings.reverse).2.1 })[i2]? = some pb := by
              rw [List.getElem?_set_ne (by omega)]
              exact hpb
            exact @countsD_set_le _ i2 _ _ hm1 hkeptle j
        exact fun i => le_trans (h2 i) (h1 i)

theorem counts_rluFold_le (rng : Rng) (pairs : List (Nat × Nat)) :
    ∀ st : List Player × Nat,
      (pairs.foldl (rluStep rng) st).1.length = st.1.length ∧
      ∀ i, (underlingCounts (pairs.foldl (rluStep rng) st).1).getD i 0 ≤
        (underlingCounts st.1).getD i 0 := by
  induction pairs with
  | nil => exact fun st => ⟨rfl, fun i => le_refl _⟩
  | cons hd t ih =>
    intro st
    rw [List.foldl_cons]
    obtain ⟨hl, hc⟩ := ih (rluStep rng st hd)
    obtain ⟨hl0, hc0⟩ := counts_rluStep_le rng st hd
    exact ⟨hl.trans hl0, fun i => (hc i).trans (hc0 i)⟩

theorem length_underlingCounts (ps : List Player) :
    (underlingCounts ps).length = ps.length := by
  unfold underlingCounts
  exact List.length_map _ _

theorem counts_resolveLeaderCollisions_le (rng : Rng) (k : Nat) (ps : List Player) :
    (resolveLeaderCollisions rng k ps).1.length = ps.length ∧
    ∀ i, (underlingCounts (resolveLeaderCollisions rng k ps).1).getD i 0 ≤
      (underlingCounts ps).getD i 0 := by
  unfold resolveLeaderCollisions resolveLeaderUnderlingCollisions
  obtain ⟨hl, hc⟩ := counts_rluFold_le rng (rluPairs (resolveLeaderLeader ps).length)
    ((resolveLeaderLeader ps), k)
  have hll := counts_resolveLeaderLeader ps
  have hlen : (resolveLeaderLeader ps).length = ps.length := by
    have h1 := congrArg List.length hll
    rw [length_underlingCounts, length_underlingCounts] at h1
    exact h1
  refine ⟨hl.trans hlen, fun i => ?_⟩
  calc (underlingCounts ((rluPairs (resolveLeaderLeader ps).length).foldl
        (rluStep rng) ((resolveLeaderLeader ps), k)).1).getD i 0
      ≤ (underlingCounts (resolveLeaderLeader ps)).getD i 0 := hc i
    _ = (underlingCounts ps).getD i 0 := by rw [hll]

theorem players_checkForWinner (now : ℚ) (r : Room) :
    (checkForWinner now r).players = r.players := by
  simp only [checkForWinner]
  split
  · simp
  · rfl

theorem counts_updateRoom_le (rng : Rng) (k : Nat) (now dt : ℚ) (room : Room) :
    ((updateRoom rng k now dt room).1).players.length = room.players.length ∧
    ∀ i, (underlingCounts ((updateRoom rng k now dt room).1).players).getD i 0 ≤
      (underlingCounts room.players).getD i 0 := by
  unfold updateRoom
  simp only [Room.players_touch]
  rw [players_checkForWinner]
  set ps0 := room.players.map updateLeaderMovement with hps0
  have e0 : underlingCounts ps0 = underlingCounts room.players :=
    @counts_map_eq updateLeaderMovement (fun p => rfl) room.players
  set u1 := stepPlayersUnderlings rng dt k ps0 with hu1
  have e1 : underlingCounts u1.1 = underlingCounts ps0 :=
    counts_stepPlayersUnderlings rng dt k ps0
  set ps2 := u1.1.map (stepLeader dt) with hps2
  have e2 : underlingCounts ps2 = underlingCounts u1.1 :=
    @counts_map_eq (stepLeader dt) (fun p => rfl) u1.1
  set ps3 := resolveUnderlingCollisions ps2 with hps3
  have e3 : underlingCounts ps3 = underlingCounts ps2 :=
    counts_resolveUnderlingCollisions ps2
  obtain ⟨hl4, hc4⟩ := counts_resolveLeaderCollisions_le rng u1.2 ps3
  have hlen_of_counts : ∀ a b : List Player,
      underlingCounts a = underlingCounts b → a.length = b.length := by
    intro a b hab
    have := congrArg List.length hab
    rw [length_underlingCounts, length_underlingCounts] at this
    exact this
  constructor
  · show (resolveLeaderCollisions rng u1.2 ps3).1.length = room.players.length
    rw [hl4]
    rw [hlen_of_counts _ _ e3, hlen_of_counts _ _ e2, hlen_of_counts _ _ e1,
      hlen_of_counts _ _ e0]
  · intro i
    show (underlingCounts (resolveLeaderCollisions rng u1.2 ps3).1).getD i 0 ≤ _
    calc (underlingCounts (resolveLeaderCollisions rng u1.2 ps3).1).getD i 0
        ≤ (underlingCounts ps3).getD i 0 := hc4 i
      _ = (underlingCounts room.players).getD i 0 := by rw [e3, e2, e1, e0]

/-- `TickAsync` body on an already-active room: no auto-start, one
`UpdateRoom`, and the usual announcement bookkeeping. -/
theorem tickRoom_eq_active (rng : Rng) (k : Nat) (now dt : ℚ) (room : Room)
    (h : room.isActive = true) (u : Room × Nat)
    (hu : updateRoom rng k now dt room = u) :
    tickRoom rng k now dt room =
      tickFinish u.2 u.1 u.1.winnerId
        ((room.winnerId.isSome && !room.winnerBroadcasted) ||
          (u.1.winnerId.isSome && !u.1.winnerBroadcasted)) := by
  have hss : room.shouldStart = false := by simp [Room.shouldStart, h]
  unfold tickRoom
  rw [hss]
  simp only [Bool.false_eq_true, if_false, h, Bool.not_true, hu]

/-- C3 — within a match, each player's underling count never increases
across one Simulation Step (`UpdateRoom`), nor across a full tick on an
active (mid-match) room; and every sub-step other than the
leader–underling collision resolution — leader intent, underling
wander/integrate/bounce, leader integrate/bounce, underling–underling
collision, leader–leader collision, win check — preserves each player's
underling count exactly, so the leader–underling resolution is the sole
mechanism by which underlings are removed (and nothing adds them). -/
theorem C3_underling_counts (rng : Rng) (k : Nat) (now dt : ℚ) (room : Room) :
    (((updateRoom rng k now dt room).1).players.length = room.players.length ∧
     ∀ i, (underlingCounts ((updateRoom rng k now dt room).1).players).getD i 0 ≤
       (underlingCounts room.players).getD i 0) ∧
    (room.isActive = true →
     ∀ i, (underlingCounts ((tickRoom rng k now dt room).room).players).getD i 0 ≤
       (underlingCounts room.players).getD i 0) ∧
    (∀ ps : List Player,
      underlingCounts (ps.map updateLeaderMovement) = underlingCounts ps) ∧
    (∀ (k2 : Nat) (ps : List Player),
      underlingCounts (stepPlayersUnderlings rng dt k2 ps).1 = underlingCounts ps) ∧
    (∀ ps : List Player, underlingCounts (ps.map (stepLeader dt)) = underlingCounts ps) ∧
    (∀ ps : List Player,
      underlingCounts (resolveUnderlingCollisions ps) = underlingCounts ps) ∧
    (∀ ps : List Player,
      underlingCounts (resolveLeaderLeader ps) = underlingCounts ps) ∧
    (∀ r : Room, (checkForWinner now r).players = r.players) := by
  refine ⟨counts_updateRoom_le rng k now dt room, ?_,
    fun ps => @counts_map_eq updateLeaderMovement (fun p => rfl) ps,
    fun k2 ps => counts_stepPlayersUnderlings rng dt k2 ps,
    fun ps => @counts_map_eq (stepLeader dt) (fun p => rfl) ps,
    counts_resolveUnderlingCollisions,
    counts_resolveLeaderLeader,
    fun r => players_checkForWinner now r⟩
  intro hactive i
  rw [tickRoom_eq_active rng k now dt room hactive _ rfl]
  unfold tickFinish
  split
  · show (underlingCounts (Room.markWinnerBroadcasted
      (updateRoom rng k now dt room).1).players).getD i 0 ≤ _
    rw [Room.players_markWinnerBroadcasted]
    exact (counts_updateRoom_le rng k now dt room).2 i
  · exact (counts_updateRoom_le rng k now dt room).2 i

/-- `TickAsync` body on an inactive room with two players present:
auto-start (reset + `Start`) followed by one `UpdateRoom` of the fresh
match. -/
theorem tickRoom_eq_start (rng : Rng) (k : Nat) (now dt : ℚ) (room : Room)
    (h : room.isActive = false) (h2 : room.players.length = 2)
    (v : Room × Nat) (hv : resetRoom rng k now room = v)
    (u : Room × Nat) (hu : updateRoom rng v.2 now dt (Room.start now v.1) = u) :
    tickRoom rng k now dt room =
      tickFinish u.2 u.1 u.1.winnerId
        ((room.winnerId.isSome && !room.winnerBroadcasted) ||
          (u.1.winnerId.isSome && !u.1.winnerBroadcasted)) := by
  have hss : room.shouldStart = true := by simp [Room.shouldStart, h, h2]
  unfold tickRoom
  rw [hss]
  simp only [if_true, eq_self_iff_true, Room.isActive_start, Bool.not_true,
    Bool.false_eq_true, if_false, hv, hu]

/-- `TickAsync` body on an inactive room without two players: only the
broadcast bookkeeping runs. -/
theorem tickRoom_eq_idle (rng : Rng) (k : Nat) (now dt : ℚ) (room : Room)
    (h : room.isActive = false) (h2 : ¬(room.players.length = 2)) :
    tickRoom rng k now dt room =
      tickFinish k room room.winnerId
        (room.winnerId.isSome && !room.winnerBroadcasted) := by
  have hss : room.shouldStart = false := by simp [Room.shouldStart, h2]
  unfold tickRoom
  rw [hss]
  simp only [Bool.false_eq_true, if_false, h, Bool.not_false, if_true]

/-- After one Simulation Step the room's flags are either untouched or a
winner was just recorded by `CheckForWinner`'s `Stop`. -/
theorem updateRoom_flags (rng : Rng) (k : Nat) (now dt : ℚ) (room : Room) :
    ((updateRoom rng k now dt room).1.winnerId = room.winnerId ∧
     (updateRoom rng k now dt room).1.isActive = room.isActive ∧
     (updateRoom rng k now dt room).1.winnerBroadcasted = room.winnerBroadcasted) ∨
    ((updateRoom rng k now dt room).1.isActive = false ∧
     (updateRoom rng k now dt room).1.winnerBroadcasted = false ∧
     ∃ cid, (updateRoom rng k now dt room).1.winnerId = some cid) := by
  have heq : updateRoom rng k now dt room =
      (Room.touch now (checkForWinner now { room with players :=
        (resolveLeaderCollisions rng (stepPlayersUnderlings rng dt k
          (room.players.map updateLeaderMovement)).2
          (resolveUnderlingCollisions ((stepPlayersUnderlings rng dt k
            (room.players.map updateLeaderMovement)).1.map (stepLeader dt)))).1 }),
       (resolveLeaderCollisions rng (stepPlayersUnderlings rng dt k
          (room.players.map updateLeaderMovement)).2
          (resolveUnderlingCollisions ((stepPlayersUnderlings rng dt k
            (room.players.map updateLeaderMovement)).1.map (stepLeader dt)))).2) := rfl
  rw [heq]
  simp only [Room.isActive_touch, Room.winnerId_touch, Room.winnerBroadcasted_touch]
  simp only [checkForWinner]
  split
  · right
    exact ⟨rfl, rfl, _, rfl⟩
  · left
    exact ⟨rfl, rfl, rfl⟩

/-! ### Win detection and exactly-once announcement (claim C4) -/

/-- `CheckForWinner` on a two-player room: the first player whose opponent
has no underlings left is recorded as winner by `Stop`. -/
theorem checkForWinner_two (now : ℚ) (r : Room) (pA pB : Player)
    (hr : r.players = [pA, pB]) :
    (pB.underlings = [] →
      checkForWinner now r = Room.stop now (some pA.connectionId) r) ∧
    (pA.underlings = [] →
      checkForWinner now r =
        Room.stop now (some ((if pB.underlings = [] then pA else pB).connectionId)) r) := by
  constructor
  · intro hB
    simp only [checkForWinner, hr]
    simp [show (List.range 2 : List Nat) = [0, 1] from rfl,
      show firstOtherIdx 2 0 = some 1 from rfl,
      show firstOtherIdx 2 1 = some 0 from rfl,
      List.findSome?_cons, hB]
  · intro hA
    by_cases hB : pB.underlings = []
    · simp only [checkForWinner, hr, if_pos hB]
      simp [show (List.range 2 : List Nat) = [0, 1] from rfl,
        show firstOtherIdx 2 0 = some 1 from rfl,
        show firstOtherIdx 2 1 = some 0 from rfl,
        List.findSome?_cons, hB]
    · simp only [checkForWinner, hr, if_neg hB]
      simp [show (List.range 2 : List Nat) = [0, 1] from rfl,
        show firstOtherIdx 2 0 = some 1 from rfl,
        show firstOtherIdx 2 1 = some 0 from rfl,
        List.findSome?_cons, hA, hB]

/-- On a finished room whose win has already been broadcast, a further tick
never re-fires that win's notification: either nothing is announced, or the
announcement carries the winner of the fresh match that this tick
auto-started (the tick's own final `winnerId`), never the stale one. -/
theorem tickRoom_no_refire (rng2 : Rng) (k2 : Nat) (now2 dt2 : ℚ) (r : Room)
    (hact : r.isActive = false) (hbc : r.winnerBroadcasted = true) :
    (tickRoom rng2 k2 now2 dt2 r).announced = none ∨
    (tickRoom rng2 k2 now2 dt2 r).announced =
      ((tickRoom rng2 k2 now2 dt2 r).room).winnerId := by
  by_cases hlen : r.players.length = 2
  · rw [tickRoom_eq_start rng2 k2 now2 dt2 r hact hlen _ rfl _ rfl]
    unfold tickFinish
    rw [hbc]
    rcases updateRoom_flags rng2 (resetRoom rng2 k2 now2 r).2 now2 dt2
        (Room.start now2 (resetRoom rng2 k2 now2 r).1) with
      ⟨he1, _, _⟩ | ⟨_, hb2, cid, hc2⟩
    · left
      rw [he1, Room.winnerId_start]
      simp
    · right
      rw [hc2, hb2]
      simp [hc2]
  · rw [tickRoom_eq_idle rng2 k2 now2 dt2 r hact hlen]
    unfold tickFinish
    rw [hbc]
    left
    simp

/-- C4 — when a player's opponent runs out of underlings, `CheckForWinner`
stops the match within that same tick with the surviving player's
connection id as `winnerId`; the tick that records a fresh winner announces
it (`GameOver`) exactly once, marking it broadcast, and a second tick on
the same room never re-fires that notification (any later announcement
carries only a winner produced by that later tick's fresh match). -/
theorem C4_win_announced_once (rng : Rng) (k : Nat) (now dt : ℚ) (room : Room)
    (w : String)
    (hactive : room.isActive = true)
    (hwin0 : room.winnerId = none)
    (hbc0 : room.winnerBroadcasted = false)
    (hwin1 : ((tickRoom rng k now dt room).room).winnerId = some w) :
    ((tickRoom rng k now dt room).room).isActive = false ∧
    (tickRoom rng k now dt room).announced = some w ∧
    ((tickRoom rng k now dt room).room).winnerBroadcasted = true ∧
    (∀ (r : Room) (pA pB : Player), r.players = [pA, pB] →
      (pB.underlings = [] →
        checkForWinner now r = Room.stop now (some pA.connectionId) r) ∧
      (pA.underlings = [] →
        checkForWinner now r =
          Room.stop now (some ((if pB.underlings = [] then pA
            else pB).connectionId)) r)) ∧
    (∀ (rng2 : Rng) (k2 : Nat) (now2 dt2 : ℚ),
      (tickRoom rng2 k2 now2 dt2 ((tickRoom rng k now dt room).room)).announced =
        none ∨
      (tickRoom rng2 k2 now2 dt2 ((tickRoom rng k now dt room).room)).announced =
        ((tickRoom rng2 k2 now2 dt2
          ((tickRoom rng k now dt room).room)).room).winnerId) := by
  have hwid : ((tickRoom rng k now dt room).room).winnerId =
      (updateRoom rng k now dt room).1.winnerId := by
    rw [tickRoom_eq_active rng k now dt room hactive _ rfl]
    unfold tickFinish
    split
    · exact Room.winnerId_markWinnerBroadcasted _
    · rfl
  have hwin1' : (updateRoom rng k now dt room).1.winnerId = some w := by
    rw [← hwid]
    exact hwin1
  rcases updateRoom_flags rng k now dt room with ⟨he1, _, _⟩ | ⟨ha2, hb2, cid, hc2⟩
  · rw [hwin0] at he1
    rw [he1] at hwin1'
    exact absurd hwin1' (by simp)
  · have hcond : (((room.winnerId.isSome && !room.winnerBroadcasted) ||
        ((updateRoom rng k now dt room).1.winnerId.isSome &&
          !(updateRoom rng k now dt room).1.winnerBroadcasted)) &&
        (updateRoom rng k now dt room).1.winnerId.isSome) = true := by
      rw [hwin0, hwin1', hb2, hbc0]
      rfl
    rw [tickRoom_eq_active rng k now dt room hactive _ rfl]
    unfold tickFinish
    rw [if_pos hcond]
    refine ⟨?_, hwin1', rfl, fun r pA pB hr => checkForWinner_two now r pA pB hr, ?_⟩
    · show (Room.markWinnerBroadcasted (updateRoom rng k now dt room).1).isActive = false
      rw [Room.isActive_markWinnerBroadcasted]
      exact ha2
    · intro rng2 k2 now2 dt2
      refine tickRoom_no_refire rng2 k2 now2 dt2 _ ?_ ?_
      · show (Room.markWinnerBroadcasted (updateRoom rng k now dt room).1).isActive = false
        rw [Room.isActive_markWinnerBroadcasted]
        exact ha2
      · exact Room.winnerBroadcasted_markWinnerBroadcasted _

set_option maxRecDepth 40000 in
/-- Witness for C4 at a concrete active room in which `c2`'s leader eats
`c1`'s last underling during the tick. -/
theorem C4_win_announced_once_witness :
    room_c4.isActive = true ∧
    ((tickRoom rng0 0 5 (3/100) room_c4).room).winnerId = some "c2" ∧
    ((tickRoom rng0 0 5 (3/100) room_c4).room).isActive = false ∧
    (tickRoom rng0 0 5 (3/100) room_c4).announced = some "c2" ∧
    ((tickRoom rng0 0 5 (3/100) room_c4).room).winnerBroadcasted = true := by
  have hwin1 : ((tickRoom rng0 0 5 (3/100) room_c4).room).winnerId = some "c2" := by
    decide
  have h := C4_win_announced_once rng0 0 5 (3/100) room_c4 "c2" rfl rfl rfl hwin1
  exact ⟨rfl, hwin1, h.1, h.2.1, h.2.2.1⟩

/-- Witness for C3's mid-match (active room) tick conjunct at a concrete
two-player room. -/
theorem C3_underling_counts_witness :
    room_c2.isActive = true ∧
    ∀ i, (underlingCounts ((tickRoom rng0 0 5 (3/100) room_c2).room).players).getD i 0 ≤
      (underlingCounts room_c2.players).getD i 0 := by
  exact ⟨rfl, (C3_underling_counts rng0 0 5 (3/100) room_c2).2.1 rfl⟩

/-! ### Reachable-state invariants (claims C1 and C6) -/

theorem tryAddPlayer_cases (now : ℚ) (p : Player) (r : Room) :
    r.tryAddPlayer now p = (r, false) ∨
    ((r.tryAddPlayer now p).1 =
        Room.touch now { r with players := r.players ++ [p] } ∧
      r.players.length < 2) := by
  unfold Room.tryAddPlayer
  split_ifs with h1 h2
  · left; rfl
  · left; rfl
  · right
    exact ⟨rfl, by omega⟩

theorem mem_setRoomIn {rooms : Registry} {r' x : Room}
    (hx : x ∈ setRoomIn rooms r') : x = r' ∨ x ∈ rooms := by
  unfold setRoomIn at hx
  rcases List.mem_map.mp hx with ⟨a, ha, hax⟩
  by_cases hid : (a.id == r'.id) = true
  · rw [if_pos hid] at hax
    exact Or.inl hax.symm
  · rw [if_neg hid] at hax
    exact Or.inr (hax ▸ ha)

theorem getRoom_mem {rooms : Registry} {roomId : String} {room : Room}
    (h : getRoom rooms roomId = some room) : room ∈ rooms :=
  List.mem_of_find?_eq_some h

theorem roomOk_create (rng : Rng) (k : Nat) (now : ℚ) (roomId cid : String)
    (name : Option String) :
    RoomOk ((Room.mk0 roomId now).tryAddPlayer now
      (initializePlayerEntities rng (k + 1) true
        (mkPlayer now k cid "blue" name)).1).1 := by
  rcases tryAddPlayer_cases now (initializePlayerEntities rng (k + 1) true
      (mkPlayer now k cid "blue" name)).1 (Room.mk0 roomId now) with h | ⟨h, _⟩
  · rw [h]
    exact ⟨by simp [Room.mk0], fun hc => absurd hc (by simp [Room.mk0]),
      fun hc => absurd hc (by simp [Room.mk0])⟩
  · rw [h]
    refine ⟨?_, fun hc => absurd hc ?_, fun hc => absurd hc ?_⟩
    · show ((Room.mk0 roomId now).players ++ [_]).length ≤ 2
      simp [Room.mk0]
    · show ¬(Room.touch now _).isActive = true
      simp [Room.mk0]
    · show ¬(Room.touch now _).isActive = true
      simp [Room.mk0]

theorem regOk_create (rng : Rng) (k : Nat) (now : ℚ) (roomId cid : String)
    (name : Option String) (rooms : Registry) (hOk : RegOk rooms) :
    RegOk (createRoom rng k now roomId cid name rooms).1 := by
  intro r hr
  unfold createRoom at hr
  simp only at hr
  rcases List.mem_append.mp hr with h | h
  · exact hOk r h
  · have : r = ((Room.mk0 roomId now).tryAddPlayer now
        (initializePlayerEntities rng (k + 1) true
          (mkPlayer now k cid "blue" name)).1).1 := by simpa using h
    rw [this]
    exact roomOk_create rng k now roomId cid name

theorem regOk_after_add (now : ℚ) (p : Player) {rooms : Registry} {room : Room}
    (hOk : RegOk rooms) (hroom : RoomOk room) (hfull : room.players.length < 2) :
    RegOk (setRoomIn rooms (room.tryAddPlayer now p).1) := by
  intro r hr
  rcases mem_setRoomIn hr with hr' | hr'
  · subst hr'
    rcases tryAddPlayer_cases now p room with h | ⟨h, _⟩
    · rw [h]
      exact hroom
    · rw [h]
      refine ⟨?_, fun hc => ?_, fun hc => ?_⟩
      · show (room.players ++ [p]).length ≤ 2
        simp
        omega
      · exfalso
        have hact : room.isActive = true := hc
        have := hroom.2.1 hact
        omega
      · exfalso
        have hact : room.isActive = true := hc
        have := hroom.2.1 hact
        omega
  · exact hOk r hr'

theorem regOk_join (rng : Rng) (k : Nat) (now : ℚ) (roomId cid : String)
    (name : Option String) (rooms : Registry) (hOk : RegOk rooms) :
    RegOk (tryJoinRoom rng k now roomId cid name rooms).rooms := by
  unfold tryJoinRoom
  cases hg : getRoom rooms roomId with
  | none => exact hOk
  | some room =>
    simp only
    by_cases hfull : 2 ≤ room.players.length
    · rw [if_pos hfull]
      exact hOk
    · rw [if_neg hfull]
      cases hteam : (room.players.length == 0) with
      | true =>
        simp only [hteam, eq_self_iff_true, if_true]
        split
        · exact regOk_after_add now _ hOk (hOk room (getRoom_mem hg)) (by omega)
        · exact hOk
      | false =>
        simp only [hteam, Bool.false_eq_true, if_false]
        split
        · exact regOk_after_add now _ hOk (hOk room (getRoom_mem hg)) (by omega)
        · exact hOk

theorem regOk_move (now : ℚ) (roomId cid : String) (d : Direction)
    (rooms : Registry) (hOk : RegOk rooms) :
    RegOk (tryRegisterMove now roomId cid d rooms).1 := by
  unfold tryRegisterMove
  cases hg : getRoom rooms roomId with
  | none => exact hOk
  | some room =>
    simp only
    cases hp : room.tryGetPlayer cid with
    | none => exact hOk
    | some p0 =>
      simp only
      intro r hr
      rcases mem_setRoomIn hr with hr' | hr'
      · subst hr'
        have hOkRoom := hOk room (getRoom_mem hg)
        refine ⟨?_, fun hc => ?_, fun hc => ?_⟩
        · show (room.players.map _).length ≤ 2
          rw [List.length_map]
          exact hOkRoom.1
        · show (room.players.map _).length = 2
          rw [List.length_map]
          exact hOkRoom.2.1 hc
        · exact hOkRoom.2.2 hc
      · exact hOk r hr'

theorem isActive_disconnectStopSurvivor (now : ℚ) (r1 : Room)
    (h : r1.players.isEmpty = false) :
    (disconnectStopSurvivor now r1).isActive = false := by
  unfold disconnectStopSurvivor
  cases hact : r1.isActive with
  | false =>
    simp [Room.isEmpty, h, hact]
  | true =>
    simp only [Room.isEmpty, h, hact, Bool.not_false, Bool.true_and, Bool.and_true,
      eq_self_iff_true, if_true]
    cases hps : r1.players with
    | nil =>
      rw [hps] at h
      simp at h
    | cons a t =>
      simp

theorem disconnectRoom_isActive {now : ℚ} {cid : String} {room r' : Room}
    (hc : room.containsPlayer cid = true)
    (h : disconnectRoom now cid room = some r') : r'.isActive = false := by
  unfold disconnectRoom at h
  simp only [hc, if_true] at h
  split at h
  · exact absurd h (by simp)
  · next hne =>
    cases h
    apply isActive_disconnectStopSurvivor
    have hne' : ((disconnectStopSurvivor now
        (room.removePlayer now cid).1).players).isEmpty = false := by
      simpa [Room.isEmpty] using hne
    rw [players_disconnectStopSurvivor] at hne'
    exact hne'

theorem roomOk_disconnectRoom {now : ℚ} {cid : String} {room r' : Room}
    (h : disconnectRoom now cid room = some r') (hOk : RoomOk room) : RoomOk r' := by
  by_cases hc : room.containsPlayer cid
  · have hp := disconnectRoom_players hc h
    have hlen : r'.players.length ≤ room.players.length := by
      rw [hp]
      exact List.length_filter_le _ _
    have hact : r'.isActive = false := disconnectRoom_isActive hc h
    exact ⟨le_trans hlen hOk.1,
      fun hcc => absurd hcc (by rw [hact]; simp),
      fun hcc => absurd hcc (by rw [hact]; simp)⟩
  · rw [disconnectRoom_skip (by simpa using hc)] at h
    cases h
    exact hOk

theorem regOk_disconnect (now : ℚ) (cid : String) (rooms : Registry)
    (hOk : RegOk rooms) : RegOk (handleDisconnect now cid rooms) := by
  intro r hr
  rcases List.mem_filterMap.mp hr with ⟨room, hmem, hsome⟩
  exact roomOk_disconnectRoom hsome (hOk room hmem)

theorem regOk_restart (rng : Rng) (k : Nat) (now : ℚ) (roomId : String)
    (rooms : Registry) (hOk : RegOk rooms) :
    RegOk (tryRestartMatch rng k now roomId rooms).1 := by
  unfold tryRestartMatch
  cases hg : getRoom rooms roomId with
  | none => exact hOk
  | some room =>
    simp only
    split_ifs with hlt
    · exact hOk
    · intro r hr
      rcases mem_setRoomIn hr with hr' | hr'
      · subst hr'
        have hOkRoom := hOk room (getRoom_mem hg)
        have hlen2 : room.players.length = 2 := by
          have := hOkRoom.1
          omega
        have hres : ((resetRoom rng k now room).1).players.length = 2 := by
          rw [players_resetRoom, mapThread_length, hlen2]
        refine ⟨?_, fun _ => ?_, fun _ => rfl⟩
        · rw [Room.players_start, hres]
        · rw [Room.players_start, hres]
      · exact hOk r hr'

theorem roomOk_tickFinish {r2 : Room} (h : RoomOk r2) (k2 : Nat)
    (w : Option String) (a : Bool) : RoomOk (tickFinish k2 r2 w a).room := by
  unfold tickFinish
  split
  · refine ⟨?_, fun hc => ?_, fun hc => ?_⟩
    · rw [Room.players_markWinnerBroadcasted]
      exact h.1
    · rw [Room.players_markWinnerBroadcasted]
      rw [Room.isActive_markWinnerBroadcasted] at hc
      exact h.2.1 hc
    · rw [Room.winnerId_markWinnerBroadcasted]
      rw [Room.isActive_markWinnerBroadcasted] at hc
      exact h.2.2 hc
  · exact h

theorem roomOk_updateRoom (rng : Rng) (k : Nat) (now dt : ℚ) (room : Room)
    (h : RoomOk room) : RoomOk (updateRoom rng k now dt room).1 := by
  have hlen := (counts_updateRoom_le rng k now dt room).1
  rcases updateRoom_flags rng k now dt room with ⟨hw, ha, _⟩ | ⟨ha, _, cid, hw⟩
  · refine ⟨by rw [hlen]; exact h.1, fun hc => ?_, fun hc => ?_⟩
    · rw [ha] at hc
      rw [hlen]
      exact h.2.1 hc
    · rw [ha] at hc
      rw [hw]
      exact h.2.2 hc
  · exact ⟨by rw [hlen]; exact h.1,
      fun hc => absurd hc (by rw [ha]; simp),
      fun hc => absurd hc (by rw [ha]; simp)⟩

theorem roomOk_tickRoom (rng : Rng) (k : Nat) (now dt : ℚ) (r : Room)
    (hOk : RoomOk r) : RoomOk (tickRoom rng k now dt r).room := by
  by_cases hact : r.isActive = true
  · rw [tickRoom_eq_active rng k now dt r hact _ rfl]
    exact roomOk_tickFinish (roomOk_updateRoom rng k now dt r hOk) _ _ _
  · have hact' : r.isActive = false := by simpa using hact
    by_cases hlen : r.players.length = 2
    · rw [tickRoom_eq_start rng k now dt r hact' hlen _ rfl _ rfl]
      apply roomOk_tickFinish
      apply roomOk_updateRoom
      refine ⟨?_, fun _ => ?_, fun _ => rfl⟩
      · rw [Room.players_start, players_resetRoom, mapThread_length, hlen]
      · rw [Room.players_start, players_resetRoom, mapThread_length, hlen]
    · rw [tickRoom_eq_idle rng k now dt r hact' hlen]
      exact roomOk_tickFinish hOk _ _ _

theorem regOk_tickAll (rng : Rng) (now dt : ℚ) :
    ∀ (k : Nat) (rooms : Registry), RegOk rooms →
      RegOk (tickAll rng now dt k rooms).1 := by
  intro k rooms
  induction rooms generalizing k with
  | nil =>
    intro _ r hr
    simp [tickAll] at hr
  | cons a t ih =>
    intro hOk
    unfold tickAll
    split_ifs with hexp
    · exact ih _ (fun r hr => hOk r (by simp [hr]))
    · intro r hr
      rcases List.mem_cons.mp hr with hr' | hr'
      · rw [hr']
        exact roomOk_tickRoom rng k now dt a (hOk a (by simp))
      · exact ih _ (fun r2 hr2 => hOk r2 (by simp [hr2])) r hr'

theorem reach_RegOk {rooms : Registry} (h : Reach rooms) : RegOk rooms := by
  induction h with
  | nil =>
    intro r hr
    simp at hr
  | step _ hstep ih =>
    cases hstep with
    | create rng k now roomId cid name rooms hfresh =>
      exact regOk_create rng k now roomId cid name _ ih
    | join rng k now roomId cid name rooms =>
      exact regOk_join rng k now roomId cid name _ ih
    | move now roomId cid d rooms =>
      exact regOk_move now roomId cid d _ ih
    | disconnect now cid rooms =>
      exact regOk_disconnect now cid _ ih
    | restart rng k now roomId rooms =>
      exact regOk_restart rng k now roomId _ ih
    | tick rng now dt k rooms =>
      exact regOk_tickAll rng now dt k _ ih

/-- C1 — in every reachable registry state (any sequence of `CreateRoom`,
`TryJoinRoom`, `TryRegisterMove`, `HandleDisconnect`, `TryRestartMatch`,
`TickAsync` from the empty registry), no room ever has a non-null
`winnerId` while `isActive` is true: a winner is recorded only by `Stop`,
which deactivates the room, and `Start` clears it before reactivating. -/
theorem C1_no_winner_while_active (rooms : Registry) (h : Reach rooms) :
    ∀ r ∈ rooms, ¬(¬(r.winnerId = none) ∧ r.isActive = true) := by
  intro r hr hcontra
  exact hcontra.1 ((reach_RegOk h r hr).2.2 hcontra.2)

/-- C6 — in every reachable registry state, an active room holds exactly 2
players: a room with 0 or 1 players is never active. -/
theorem C6_active_has_two_players (rooms : Registry) (h : Reach rooms) :
    ∀ r ∈ rooms, r.isActive = true → r.players.length = 2 := by
  intro r hr hact
  exact (reach_RegOk h r hr).2.1 hact

set_option maxRecDepth 40000 in
/-- Witness for C1 at a concrete reachable registry whose single room has
been auto-started by a tick. -/
theorem C1_no_winner_while_active_witness :
    roomW1.isActive = true ∧ roomW1 ∈ regW1 ∧
    ¬(¬(roomW1.winnerId = none) ∧ roomW1.isActive = true) := by
  refine ⟨by decide, by decide, ?_⟩
  exact C1_no_winner_while_active regW1
    (Reach.step (Reach.step (Reach.step Reach.nil
      (Step.create rng0 0 0 "RMAAAA" "c1" none [] rfl))
      (Step.join rng0 10 1 "RMAAAA" "c2" none _))
      (Step.tick rng0 2 (3/100) 20 _))
    roomW1 (by decide)

set_option maxRecDepth 40000 in
/-- Witness for C6 at a concrete reachable registry whose single room has
been auto-started by a tick. -/
theorem C6_active_has_two_players_witness :
    roomW2.isActive = true ∧ roomW2 ∈ regW2 ∧ roomW2.players.length = 2 := by
  refine ⟨by decide, by decide, ?_⟩
  exact C6_active_has_two_players regW2
    (Reach.step (Reach.step (Reach.step Reach.nil
      (Step.create rng0 0 0 "RMBBBB" "c3" none [] rfl))
      (Step.join rng0 10 1 "RMBBBB" "c4" none _))
      (Step.tick rng0 2 (3/100) 20 _))
    roomW2 (by decide) (by decide)

end SwarmAndSnack
